import Mathlib

/-
  Verification of the SPAREPART renumbering workflow engine
  (shallow embedding of src/python/web_server.py).

  Python strings are modelled as Lean `String` (a structure over `List Char`);
  Python dict-shaped rows and parameter sets as insertion-ordered association
  lists `List (String × String)`; JSON-like remote-response payloads as the
  inductive type `JVal`.  Python functions are transcribed one-to-one; a
  Python exception is modelled with `Except`.
-/

/-! ## Python string primitives -/

/-- Whitespace characters recognised by Python `str.strip` / `\s` (ASCII range). -/
def pyIsSpace (c : Char) : Bool :=
  c = ' ' || c = '\t' || c = '\n' || c = '\r' || c = '\x0b' || c = '\x0c'

/-- Python `str.strip()` on a character list. -/
def pyStripL (l : List Char) : List Char :=
  ((l.dropWhile pyIsSpace).reverse.dropWhile pyIsSpace).reverse

/-- Python `str.strip()`. -/
def pyStrip (s : String) : String := ⟨pyStripL s.data⟩

/-- Python `str.lower()` (ASCII). -/
def pyLower (s : String) : String := ⟨s.data.map Char.toLower⟩

/-- Substring search on character lists (Python `needle in hay`). -/
def listContains (needle : List Char) : List Char → Bool
  | [] => needle.isPrefixOf []
  | c :: t => needle.isPrefixOf (c :: t) || listContains needle t

/-- Python `needle in hay` for strings. -/
def pyIn (needle hay : String) : Bool := listContains needle.data hay.data

/-- Python `s.startswith(pre)`. -/
def pyStartsWith (s pre : String) : Bool := pre.data.isPrefixOf s.data

/-- Python `s.endswith(suf)`. -/
def pyEndsWith (s suf : String) : Bool := suf.data.isSuffixOf s.data

/-- Python `s.split(sep)` for a one-character separator, on character lists.
`"".split(sep)` is `[""]`, matching Python. -/
def pySplitCharL (sep : Char) : List Char → List (List Char)
  | [] => [[]]
  | c :: t =>
    let r := pySplitCharL sep t
    if c = sep then [] :: r
    else
      match r with
      | h :: rt => (c :: h) :: rt
      | [] => [[c]]

/-- Python `s.split(sep)` for a one-character separator. -/
def pySplit (sep : Char) (s : String) : List String :=
  (pySplitCharL sep s.data).map (fun l => ⟨l⟩)

/-- Everything before the last occurrence of `sep`; models Python
`s.rsplit(sep, 1)[0]`, which the source only evaluates after checking that
`sep` occurs in `s`. -/
def pyBeforeLast (sep : Char) (s : String) : String :=
  ⟨((s.data.reverse.dropWhile (· ≠ sep)).drop 1).reverse⟩

/-- Decimal value of a digit string (used for Python `int(...)` on
strings that consist of digits only). -/
def digitsToNat (l : List Char) : Nat :=
  l.foldl (fun acc c => acc * 10 + (c.toNat - 48)) 0

/-! ## String-valued rows and parameter dictionaries

A `StrMap` is an insertion-ordered association list modelling a Python
`dict` with string keys and string values (sqlite rows, MI parameter sets). -/

abbrev StrMap := List (String × String)

/-- Python `d.get(k, "")` / `d[k]` for rows whose absent columns read as empty. -/
def mgetD (m : StrMap) (k : String) : String := (m.lookup k).getD ""

/-- Python `d[k] = v`: replace in place if the key exists, else append. -/
def mset (m : StrMap) (k v : String) : StrMap :=
  if (m.lookup k).isSome then
    m.map (fun p => if p.1 = k then (p.1, v) else p)
  else m ++ [(k, v)]

/-- Transcribes `_row_value(row, *keys)`: the first listed column that is
present with a non-empty value, else `""`. -/
def row_value (row : StrMap) : List String → String
  | [] => ""
  | k :: rest =>
    match row.lookup k with
    | some v => if v ≠ "" then v else row_value row rest
    | none => row_value row rest

/-! ## Small helpers from the source -/

/-- Transcribes `_format_yyyymmdd`. -/
def format_yyyymmdd (value : String) : String :=
  if value = "" then ""
  else
    let digits := value.data.filter Char.isDigit
    if digits.length ≥ 8 then ⟨digits.take 8⟩ else ⟨digits⟩

/-- Transcribes `_hierarchy_level` (count of dashes). -/
def hierarchy_level (value : String) : Nat :=
  if value = "" then 0 else value.data.count '-'

/-- Transcribes `_model_suffix`. -/
def model_suffix (value : String) : String :=
  let cleaned := pyStrip value
  if cleaned = "" then ""
  else if pyIn "_" cleaned then (pySplit '_' cleaned).getLastD ""
  else cleaned

/-- Transcribes `_wagon_serial_suffix` (`re.sub(r"\s+", "", value)` removes
all whitespace). -/
def wagon_serial_suffix (value : String) : String :=
  let cleaned : List Char := value.data.filter (fun c => !pyIsSpace c)
  if cleaned = [] then ""
  else
    let suffix := if cleaned.length > 10 then cleaned.drop (cleaned.length - 10) else cleaned
    let trimmed := suffix.dropWhile (fun c => c = '0')
    if trimmed = [] then ⟨suffix⟩ else ⟨trimmed⟩

/-- Transcribes `_compute_part_updates`. -/
def compute_part_updates (row : StrMap) (new_sern new_baureihe : String) :
    String × String :=
  let itno := row_value row ["ITNO"]
  let ser2 := row_value row ["SER2"]
  let old_model := model_suffix (row_value row ["WAGEN_ITNO"])
  let new_model := model_suffix new_baureihe
  let new_itno :=
    if itno ≠ "" ∧ old_model ≠ "" ∧ new_model ≠ "" then
      if pyEndsWith itno ("_" ++ old_model) || pyEndsWith itno old_model then
        let cand : String := ⟨itno.data.take (itno.data.length - old_model.data.length)⟩ ++ new_model
        if cand = itno then "" else cand
      else ""
    else ""
  let old_suffix := wagon_serial_suffix (row_value row ["WAGEN_SERN"])
  let new_suffix := wagon_serial_suffix new_sern
  let new_ser2 :=
    if ser2 ≠ "" ∧ pyIn "-" ser2 ∧ old_suffix ≠ "" ∧ new_suffix ≠ "" then
      if pyEndsWith ser2 old_suffix then
        let cand : String := ⟨ser2.data.take (ser2.data.length - old_suffix.data.length)⟩ ++ new_suffix
        if cand = ser2 then "" else cand
      else ""
    else ""
  (new_itno, new_ser2)

/-- Transcribes `_is_ok_status`. -/
def is_ok_status (value : String) : Bool :=
  let normalized := pyLower (pyStrip value)
  pyStartsWith normalized "ok" || pyIn "success" normalized || pyIn "erfolg" normalized

/-- Python `a or b` on strings (first non-empty). -/
def pyOrS (a b : String) : String := if a ≠ "" then a else b

/-- Transcribes `_renumber_row_key`. -/
def renumber_row_key (row : StrMap) : String :=
  let cfgl := pyOrS (mgetD row "CFGL") (mgetD row "MFGL")
  String.intercalate "||" [cfgl, mgetD row "ITNO", mgetD row "SER2", mgetD row "MTRL", mgetD row "SERN"]

/-! ## Hierarchy-path handling (`_cfgl_segments`, `_parent_cfgl_for`) -/

/-- Transcribes `_cfgl_segments`: non-empty dash-separated parts, each mapped
to its integer value (all digits → the number; otherwise the digits it
contains, or 0 when it has none). -/
def cfgl_segments (value : String) : List Nat :=
  ((pySplitCharL '-' value.data).filter (· ≠ [])).map (fun part =>
    if part.all Char.isDigit then digitsToNat part
    else
      let digs := part.filter Char.isDigit
      if digs = [] then 0 else digitsToNat digs)

/-- Transcribes `_cfgl_sort_key_desc`. -/
def cfgl_sort_key_desc (value : String) : Nat × List Nat :=
  let segments := cfgl_segments value
  (segments.length, segments)

/-- Transcribes `_parent_cfgl_for`. -/
def parent_cfgl_for (cfgl : String) : String :=
  let segments := (pySplit '-' cfgl).filter (· ≠ "")
  if segments.length = 4 ∧ segments.getD 2 "" = "01" then
    segments.getD 0 "" ++ "-" ++ segments.getD 1 "" ++ "-" ++ segments.getD 3 ""
  else if pyIn "-" cfgl then pyBeforeLast '-' cfgl
  else ""

/-- Join character-list segments with a separator (the inverse of
`pySplitCharL`). -/
def joinSepL (sep : Char) : List (List Char) → List Char
  | [] => []
  | [x] => x
  | x :: y :: t => x ++ sep :: joinSepL sep (y :: t)

/-- Join string segments with dashes. -/
def joinDash (parts : List String) : String := ⟨joinSepL '-' (parts.map String.data)⟩

/-- The parent-path rule as the specification words it (claim C8): a path
with exactly 4 (non-empty) dash-separated segments whose third segment is the
sentinel "01" maps to the 3-segment path keeping segments 1, 2 and 4; any
other path containing a dash maps to the path with its last segment dropped
(the raw dash-separated fields without the final one, rejoined); a path
without a dash has the empty parent path. -/
def parent_path_spec (cfgl : String) : String :=
  let segments := (pySplit '-' cfgl).filter (· ≠ "")
  if segments.length = 4 ∧ segments.getD 2 "" = "01" then
    joinDash [segments.getD 0 "", segments.getD 1 "", segments.getD 3 ""]
  else if pyIn "-" cfgl then joinDash ((pySplit '-' cfgl).dropLast)
  else ""


/-! ## JSON-like payload values (remote responses) -/

/-- A JSON-like Python value, as produced by parsing a remote response. -/
inductive JVal where
  | null
  | bool (b : Bool)
  | num (n : Int)
  | str (s : String)
  | arr (items : List JVal)
  | obj (fields : List (String × JVal))
deriving Inhabited

/-- Python truthiness. -/
def jTruthy : JVal → Bool
  | .null => false
  | .bool b => b
  | .num n => n != 0
  | .str s => s ≠ ""
  | .arr l => !l.isEmpty
  | .obj l => !l.isEmpty

/-- Python `a or b`. -/
def pyOrJ (a b : JVal) : JVal := if jTruthy a then a else b

/-- Python `d.get(k)` on a dict (an absent key gives `None`). -/
def objGet (fs : List (String × JVal)) (k : String) : JVal := (fs.lookup k).getD .null

mutual
/-- Python `repr` of a JSON-like value (string escaping is not modelled; the
payloads considered contain no quotes or backslashes). -/
def pyReprJ : JVal → String
  | .null => "None"
  | .bool true => "True"
  | .bool false => "False"
  | .num n => toString n
  | .str s => "'" ++ s ++ "'"
  | .arr l => "[" ++ pyReprArr l ++ "]"
  | .obj fs => "\x7b" ++ pyReprObj fs ++ "\x7d"

/-- Comma-joined `repr`s of list items. -/
def pyReprArr : List JVal → String
  | [] => ""
  | [x] => pyReprJ x
  | x :: y :: t => pyReprJ x ++ ", " ++ pyReprArr (y :: t)

/-- Comma-joined `repr`s of dict items. -/
def pyReprObj : List (String × JVal) → String
  | [] => ""
  | [(k, v)] => "'" ++ k ++ "': " ++ pyReprJ v
  | (k, v) :: y :: t => "'" ++ k ++ "': " ++ pyReprJ v ++ ", " ++ pyReprObj (y :: t)
end

/-- Python `str(...)` on a JSON-like value (equals `repr` except on strings). -/
def pyStrJ : JVal → String
  | .str s => s
  | v => pyReprJ v

/-- Signed decimal literal accepted by Python `int(str)` (surrounding
whitespace already stripped; underscores are not modelled). -/
def parseIntL : List Char → Option Int
  | [] => none
  | '-' :: t => if t ≠ [] ∧ t.all Char.isDigit then some (-(digitsToNat t : Int)) else none
  | '+' :: t => if t ≠ [] ∧ t.all Char.isDigit then some ((digitsToNat t : Int)) else none
  | l => if l.all Char.isDigit then some ((digitsToNat l : Int)) else none

/-- Python `int(value)`; `.error ()` models the `ValueError`/`TypeError`
raised on unconvertible values. -/
def pyToInt : JVal → Except Unit Int
  | .num n => .ok n
  | .bool b => .ok (if b then 1 else 0)
  | .str s =>
    match parseIntL (pyStripL s.data) with
    | some n => .ok n
    | none => .error ()
  | _ => .error ()

/-! ## Response classifier (`_mi_extract_code_message`, `_mi_error_message`,
`_mi_status`) -/

/-- Python `entries = messages.get("Message") or messages.get("message") or []`
followed by wrapping a non-list into a one-element list. -/
def jMessageEntries (mfs : List (String × JVal)) : List JVal :=
  match pyOrJ (pyOrJ (objGet mfs "Message") (objGet mfs "message")) (.arr []) with
  | .arr l => l
  | v => [v]

/-- Python `str(entry.get(k1) or entry.get(k2) or "").strip()`. -/
def jStrField2 (fs : List (String × JVal)) (k1 k2 : String) : String :=
  pyStrip (pyStrJ (pyOrJ (pyOrJ (objGet fs k1) (objGet fs k2)) (.str "")))

/-- First non-empty stripped `MessageText` among the dict entries of a
message list (the message-scanning loops of the classifier). -/
def firstMessageText : List JVal → String
  | [] => ""
  | .obj fs :: rest =>
    let t := jStrField2 fs "MessageText" "messageText"
    if t ≠ "" then t else firstMessageText rest
  | _ :: rest => firstMessageText rest

/-- Transcribes `_mi_extract_code_message`. -/
def mi_extract_code_message (payload : JVal) : String × String :=
  match payload with
  | .obj fs =>
    match pyOrJ (pyOrJ (objGet fs "MIResponse") (objGet fs "response")) (.obj fs) with
    | .obj rfs =>
      let code := jStrField2 rfs "@code" "code"
      let msg0 :=
        match pyOrJ (objGet rfs "Messages") (objGet rfs "messages") with
        | .obj mfs => firstMessageText (jMessageEntries mfs)
        | _ => ""
      let msg :=
        if msg0 ≠ "" then msg0
        else pyStrip (pyStrJ (pyOrJ (pyOrJ (objGet rfs "Message") (objGet rfs "message")) (.str "")))
      (code, msg)
    | _ => ("", "")
  | _ => ("", "")

/-- The NOK branch of `_mi_error_message`: first non-empty `MessageText`, else
the response code, else `"ServerReturnedNOK"`. -/
def miNokMessage (rfs : List (String × JVal)) (response_code : String) : String :=
  let msgs :=
    match pyOrJ (objGet rfs "Messages") (objGet rfs "messages") with
    | .obj mfs => firstMessageText (jMessageEntries mfs)
    | _ => ""
  if msgs ≠ "" then msgs else pyOrS response_code "ServerReturnedNOK"

/-- Python `value is None or value == ""`. -/
def isNoneOrEmptyStr : JVal → Bool
  | .null => true
  | .str s => s = ""
  | _ => false

/-- The `ErrorNumber`/`ErrorCode`/`Error` scan of `_mi_error_message`: the
first listed key present with a value that is neither `None`, `""`, `"0"`
nor `"00"`. -/
def miErrorNumberScan (rfs : List (String × JVal)) : List String → Option String
  | [] => none
  | k :: rest =>
    let v := objGet rfs k
    if isNoneOrEmptyStr v then miErrorNumberScan rfs rest
    else if pyStrJ v ≠ "0" ∧ pyStrJ v ≠ "00" then some (k ++ "=" ++ pyStrJ v)
    else miErrorNumberScan rfs rest

/-- The dict-shaped entries of a message list (`isinstance(entry, dict)`). -/
def dictEntries (l : List JVal) : List (List (String × JVal)) :=
  l.filterMap (fun e => match e with | .obj fs => some fs | _ => none)

/-- First listed key of the dict with a truthy value, stringified. -/
def miFirstTruthyKey (rfs : List (String × JVal)) : List String → Option String
  | [] => none
  | k :: rest =>
    let v := objGet rfs k
    if jTruthy v then some (pyStrJ v) else miFirstTruthyKey rfs rest

/-- The response-dict inspection of `_mi_error_message`: NOK handling, the
error-number key scan, the message-type block — whose misindented final
check reads the loop variables of the last iteration and raises
`UnboundLocalError` (modelled as `.error ()`) when the message list holds no
dict entry — the error-message key scan, and the `Message` field.
`.ok (some s)` models an early `return s`; `.ok none` falls through. -/
def miResponseScan (response : JVal) : Except Unit (Option String) :=
  match response with
  | .obj rfs =>
    let response_type := jStrField2 rfs "@type" "type"
    let response_code := jStrField2 rfs "@code" "code"
    if pyIn "NOK" response_type || pyIn "NOK" response_code then
      .ok (some (miNokMessage rfs response_code))
    else
      match miErrorNumberScan rfs ["ErrorNumber", "errorNumber", "ErrorCode", "errorCode", "Error"] with
      | some msg => .ok (some msg)
      | none =>
        let step2 : Except Unit (Option String) :=
          match pyOrJ (objGet rfs "Messages") (objGet rfs "messages") with
          | .obj mfs =>
            match (dictEntries (jMessageEntries mfs)).getLast? with
            | none => .error ()
            | some lastfs =>
              let msg_type := jStrField2 lastfs "MessageType" "messageType"
              let msg_text := jStrField2 lastfs "MessageText" "messageText"
              if msg_type ∈ ["2", "3", "4", "E", "ERROR"] then
                if msg_text ≠ "" ∧ pyIn "mo96202" (pyLower msg_text) = true then .ok (some "")
                else .ok (some (pyOrS msg_text ("MessageType=" ++ msg_type)))
              else if msg_text ≠ "" ∧
                  (pyIn "error" (pyLower msg_text) || pyIn "fehler" (pyLower msg_text)) = true then
                .ok (some msg_text)
              else .ok none
          | _ => .ok none
        match step2 with
        | .error e => .error e
        | .ok (some s) => .ok (some s)
        | .ok none =>
          match miFirstTruthyKey rfs
              ["ErrorMessage", "errorMessage", "ErrorMsg", "errorMsg", "ErrorText", "errorText"] with
          | some s => .ok (some s)
          | none =>
            let message := pyOrJ (objGet rfs "Message") (objGet rfs "message")
            if jTruthy message then
              let text := pyStrJ message
              if pyIn "error" (pyLower text) || pyIn "fehler" (pyLower text) then .ok (some text)
              else .ok none
            else .ok none
  | _ => .ok none

/-- The `"text"` field check of `_mi_error_message` (`some` = early return). -/
def miTextCheck (fs : List (String × JVal)) : Option String :=
  match fs.lookup "text" with
  | some tv =>
    if jTruthy tv then
      let text := pyStrJ tv
      if pyIn "error" (pyLower text) || pyIn "fehler" (pyLower text) then some text else none
    else none
  | none => none

mutual
/-- Transcribes `_mi_error_message`: the error text extracted from a payload
(`""` when none is found); `.error ()` models an uncaught exception
(`UnboundLocalError` from the misindented message-type block, or `int(...)`
failing on a non-numeric truthy `status_code`). -/
def mi_error_message : JVal → Except Unit String
  | .null => .ok "Leere Antwort"
  | .bool _ => .ok ""
  | .num _ => .ok ""
  | .str _ => .ok ""
  | .arr l => mi_scan_list l
  | .obj fs =>
    let status_code := pyOrJ (objGet fs "status_code") (objGet fs "statusCode")
    if jTruthy status_code then
      match pyToInt status_code with
      | .error e => .error e
      | .ok n =>
        if n ≠ 200 then .ok ("HTTP " ++ pyStrJ status_code)
        else mi_obj_rest fs
    else mi_obj_rest fs

/-- Continuation of `_mi_error_message` on a dict after the status-code
check: the `"text"` check, the response-dict inspection, then the generic
key/value scan. -/
def mi_obj_rest (fs : List (String × JVal)) : Except Unit String :=
  match miTextCheck fs with
  | some t => .ok t
  | none =>
    match miResponseScan (pyOrJ (pyOrJ (objGet fs "MIResponse") (objGet fs "response")) (.obj fs)) with
    | .error e => .error e
    | .ok (some s) => .ok s
    | .ok none => mi_scan_items fs

/-- The final `for key, value in payload.items()` loop of `_mi_error_message`. -/
def mi_scan_items : List (String × JVal) → Except Unit String
  | [] => .ok ""
  | (k, v) :: rest =>
    if pyLower k ∈ ["error", "errormessage", "errormsg", "errortext"] ∧ jTruthy v = true then
      .ok (pyStrJ v)
    else
      match v with
      | .obj vfs =>
        match mi_error_message (.obj vfs) with
        | .error e => .error e
        | .ok nested => if nested ≠ "" then .ok nested else mi_scan_items rest
      | .arr vl =>
        match mi_error_message (.arr vl) with
        | .error e => .error e
        | .ok nested => if nested ≠ "" then .ok nested else mi_scan_items rest
      | _ => mi_scan_items rest

/-- The list branch of `_mi_error_message`. -/
def mi_scan_list : List JVal → Except Unit String
  | [] => .ok ""
  | item :: rest =>
    match mi_error_message item with
    | .error e => .error e
    | .ok nested => if nested ≠ "" then .ok nested else mi_scan_list rest
end

/-- Transcribes `_mi_status`: success flag, classification label, error text. -/
def mi_status (payload : JVal) : Except Unit (Bool × String × String) :=
  let cm := mi_extract_code_message payload
  let code := cm.1
  let message := cm.2
  let ml := pyLower message
  if code = "MO96202" || pyIn "asynchronous removal" ml then .ok (true, "OK_ASYNC", "")
  else if code = "MO12524" || pyIn "is installed in this position" ml then .ok (true, "OK_IDEMPOTENT", "")
  else if code = "MO12527" || pyIn "status is 80" ml then .ok (false, "BLOCKING_WARNING", pyOrS message code)
  else
    match mi_error_message payload with
    | .error e => .error e
    | .ok em => if em ≠ "" then .ok (false, "ERROR", em) else .ok (true, "OK", "")


/-! ## Run-state merge-on-reimport (`_store_mi_rows`, lines 1925-1967) -/

/-- Python `d.setdefault(k, []).append(v)` on a dict of lists. -/
def mapAppend {α : Type} (m : List (String × List α)) (k : String) (v : α) :
    List (String × List α) :=
  if (m.lookup k).isSome then
    m.map (fun p => if p.1 = k then (p.1, p.2 ++ [v]) else p)
  else m ++ [(k, [v])]

/-- In-place replacement of the list stored under a key (the effect of
`candidates.pop(0)` on the list object held by the dict). -/
def mapSetList {α : Type} (m : List (String × List α)) (k : String) (v : List α) :
    List (String × List α) :=
  m.map (fun p => if p.1 = k then (p.1, v) else p)

/-- The list stored under a key, `[]` when absent. -/
def mapList {α : Type} (m : List (String × List α)) (k : String) : List α :=
  (m.lookup k).getD []

/-- The keyed grouping of the pre-existing rows (`existing_map`), built in
stored (rowid) order. -/
def buildExistingMap (existing : List StrMap) : List (String × List StrMap) :=
  existing.foldl (fun m r => mapAppend m (renumber_row_key r) r) []

/-- Status and derived fields copied forward when non-empty. -/
def renumberCarryColumns : List String :=
  ["PLPN", "MWNO", "MOS100_STATUS", "MOS180_STATUS", "MOS050_STATUS", "CRS335_STATUS",
   "STS046_STATUS", "STS046_ADD_STATUS", "MMS240_STATUS", "CUSEXT_STATUS",
   "NEW_PART_ITNO", "NEW_PART_SER2"]

/-- Carry completed state from a consumed pre-existing row into an imported
row (the body of the merge loop of `_store_mi_rows`): `OUT`/`UPDATED_AT`
only when the old removal status is OK-like, `IN`/`TIMESTAMP_IN` when `IN`
is non-empty, and each remaining status or derived column when non-empty. -/
def inherit_from_existing (row existing : StrMap) : StrMap :=
  let row1 :=
    if is_ok_status (mgetD existing "OUT") then
      mset (mset row "OUT" (mgetD existing "OUT")) "UPDATED_AT" (mgetD existing "UPDATED_AT")
    else row
  let row2 :=
    if mgetD existing "IN" ≠ "" then
      mset (mset row1 "IN" (mgetD existing "IN")) "TIMESTAMP_IN" (mgetD existing "TIMESTAMP_IN")
    else row1
  renumberCarryColumns.foldl
    (fun r k => if mgetD existing k ≠ "" then mset r k (mgetD existing k) else r) row2

/-- The merge loop of `_store_mi_rows`: each imported row consumes the first
remaining pre-existing row with its key (`candidates.pop(0)`); an imported
row with no remaining match is kept unchanged. -/
def merge_loop : List StrMap → List (String × List StrMap) → List StrMap
  | [], _ => []
  | row :: rest, m =>
    let key := renumber_row_key row
    match m.lookup key with
    | some (ex :: exs) => inherit_from_existing row ex :: merge_loop rest (mapSetList m key exs)
    | _ => row :: merge_loop rest m

/-- The pure core of `_store_mi_rows` for the renumber table: merge with the
pre-existing rows when there are any, then assign `SEQ` 1.. in order. -/
def store_mi_rows_merge (existing imported : List StrMap) : List StrMap :=
  let merged := if existing ≠ [] then merge_loop imported (buildExistingMap existing) else imported
  merged.mapIdx (fun i r => mset r "SEQ" (toString (i + 1)))


/-- Concrete pre-existing row for instantiating the C10 theorem: its removal
status is the dry-run marker and it carries a generated work order. -/
def c10ex : StrMap :=
  [("CFGL", "1-1"), ("ITNO", "A"), ("SER2", "S"), ("MTRL", "W"), ("SERN", "WS"),
   ("OUT", "DRYRUN"), ("MWNO", "M1")]

/-- Concrete freshly imported row with the same merge key as `c10ex`. -/
def c10imp : StrMap :=
  [("CFGL", "1-1"), ("ITNO", "A"), ("SER2", "S"), ("MTRL", "W"), ("SERN", "WS")]


/-! ## Hierarchy resolver (`_build_mrouhi_preview_rows`,
`_build_mrouhi_parent_candidates`) -/

/-- Python dict assignment on a keyed map (replace in place or append). -/
def amset {α : Type} (m : List (String × α)) (k : String) (v : α) : List (String × α) :=
  if (m.lookup k).isSome then
    m.map (fun p => if p.1 = k then (p.1, v) else p)
  else m ++ [(k, v)]

/-- Stable insertion sort: Python `sorted` is a stable sort, and a stable
sort's output is uniquely determined by the input order and the total
preorder, so this structural implementation models `sorted(l, key=...)`
(with `le x y` meaning the key of `x` is not greater than the key of `y`,
or not smaller for `reverse=True`). -/
def pyInsert {α : Type} (le : α → α → Bool) (x : α) : List α → List α
  | [] => [x]
  | y :: t => if le x y then x :: y :: t else y :: pyInsert le x t

/-- Stable sort of a list (see `pyInsert`). -/
def pySorted {α : Type} (le : α → α → Bool) (l : List α) : List α :=
  l.foldr (pyInsert le) []

/-- Strict lexicographic comparison of Python int lists. -/
def natListLt : List Nat → List Nat → Bool
  | [], [] => false
  | [], _ :: _ => true
  | _ :: _, [] => false
  | a :: at2, b :: bt =>
    if a < b then true else if b < a then false else natListLt at2 bt

/-- Strict comparison of `_cfgl_sort_key_desc` values (Python tuple order). -/
def cfglKeyLt (x y : Nat × List Nat) : Bool :=
  if x.1 < y.1 then true else if y.1 < x.1 then false else natListLt x.2 y.2

/-- Strict comparison of the full sort key `(_cfgl_sort_key_desc(CFGL), idx)`. -/
def strLtL : List Char → List Char → Bool
  | [], [] => false
  | [], _ :: _ => true
  | _ :: _, [] => false
  | a :: at2, b :: bt =>
    if a.toNat < b.toNat then true else if b.toNat < a.toNat then false else strLtL at2 bt

/-- Python string `<`: lexicographic comparison by code point. -/
def strLtB (x y : String) : Bool := strLtL x.data y.data

def mrKeyLt (x y : (Nat × List Nat) × String) : Bool :=
  if cfglKeyLt x.1 y.1 then true
  else if cfglKeyLt y.1 x.1 then false
  else strLtB x.2 y.2

/-- Strict comparison of Python string pairs (the `(SERN, ITNO)` sort key). -/
def strPairLt (x y : String × String) : Bool :=
  if strLtB x.1 y.1 then true else if strLtB y.1 x.1 then false else strLtB x.2 y.2

/-- One filtered historical record of the hierarchy (`entries` element of
`_build_mrouhi_preview_rows`). -/
structure MrEntry where
  idx : String
  hiit : String
  hisn : String
  cfgl : String
  itno : String
  sern : String
  remd : String
  rmts : String
  eqtp : String
  stat : String
deriving DecidableEq, Inhabited

/-- One resolver output row. -/
structure MrPreview where
  cfgl : String
  itno : String
  sern : String
  remd : String
  rmts : String
  parent_cfgl : String
  parent_itno : String
  parent_sern : String
deriving DecidableEq, Inhabited

/-- Transcribes `_remd_is_blank`. -/
def remd_is_blank (value : String) : Bool :=
  let normalized := pyStrip value
  normalized = "" || normalized = "0" || normalized = "00000000"

/-- One raw record mapped to an entry of `_build_mrouhi_preview_rows`
(`None` when filtered out: blank path or blank removal date). -/
def mrouhi_entry_of (i : Nat) (r : StrMap) : Option MrEntry :=
  let cfgl := pyStrip (mgetD r "CFGL")
  if cfgl = "" then none
  else if remd_is_blank (pyStrip (mgetD r "REMD")) then none
  else some
    { idx := toString i
      hiit := pyStrip (mgetD r "HIIT")
      hisn := pyStrip (mgetD r "HISN")
      cfgl := cfgl
      itno := pyStrip (mgetD r "ITNO")
      sern := pyStrip (mgetD r "SERN")
      remd := pyStrip (mgetD r "REMD")
      rmts := pyStrip (mgetD r "RMTS")
      eqtp := pyStrip (mgetD r "EQTP")
      stat := pyStrip (mgetD r "STAT") }

/-- The filtered, enumerated entries of the raw record list. -/
def mrouhi_entries (rows : List StrMap) : List MrEntry :=
  rows.enum.filterMap (fun p => mrouhi_entry_of p.1 p.2)

/-- The map from `CFGL` to its entries, in insertion order (`cfgl_map`). -/
abbrev CMap := List (String × List MrEntry)

/-- Builds `cfgl_map`. -/
def mr_cfgl_map (entries : List MrEntry) : CMap :=
  entries.foldl (fun m e => mapAppend m e.cfgl e) []

/-- Builds `cfgl_counts` from the initial map. -/
def mr_cfgl_counts (m : CMap) : List (String × Nat) :=
  m.map (fun kv => (kv.1, kv.2.length))

/-- The descending entry sort of `_build_mrouhi_preview_rows`
(`sorted(..., key=(cfgl_sort_key_desc, idx), reverse=True)`, stable). -/
def mrDescLe (a b : MrEntry) : Bool :=
  !(mrKeyLt (cfgl_sort_key_desc a.cfgl, a.idx) (cfgl_sort_key_desc b.cfgl, b.idx))

/-- Candidate sort by `(SERN, ITNO)`, ascending and stable. -/
def candSortLe (a b : MrEntry) : Bool := !(strPairLt (b.sern, b.itno) (a.sern, a.itno))

/-- The widening pass over sibling paths (`for cfgl_key, candidates in
cfgl_map.items(): ... parent_candidates.extend(candidates)`). -/
def widenSiblings {α : Type} (m : List (String × List α)) (pcfgl ppfx : String) (td : Nat) :
    List α :=
  m.foldl (fun acc kv =>
    if kv.1 = pcfgl then acc
    else if pyStartsWith kv.1 (ppfx ++ "-") = false then acc
    else if (cfgl_segments kv.1).length ≠ td then acc
    else acc ++ kv.2) []

/-- The raw parent-candidate computation for one entry in
`_build_mrouhi_preview_rows`, together with the updated map: Python binds
`parent_candidates` to the list object stored in `cfgl_map`, so the
`.extend(...)` of the widening pass also mutates the stored list (only when
the parent path is a stored key). -/
def preview_candidates (m : CMap) (counts : List (String × Nat)) (e : MrEntry) :
    List MrEntry × CMap :=
  let pc := parent_cfgl_for e.cfgl
  if pc = "" then ([], m)
  else
    let base := mapList m pc
    let child_count := (counts.lookup e.cfgl).getD 0
    if child_count > base.length then
      let ppfx := if pyIn "-" pc then pyBeforeLast '-' pc else ""
      if ppfx ≠ "" then
        let ext := widenSiblings m pc ppfx ((cfgl_segments pc).length)
        let newList := base ++ ext
        (newList, if (m.lookup pc).isSome then mapSetList m pc newList else m)
      else (base, m)
    else (base, m)

/-- The fixed component-type-to-parent-type map (`eqtp_parent_map`). -/
def eqtp_parent_map : List (String × String) := [("110", "106")]

/-- The candidate filtering, sorting and indexing for one entry with a
non-empty candidate list: the component-type filter (kept only when it
leaves something), the `(SERN, ITNO)` sort, and selection by child index —
directly when the candidates cover the group, modulo the candidate count
otherwise; the chosen candidate's identifiers override the raw `HIIT`/`HISN`
only when non-empty. -/
def preview_choose (counts : List (String × Nat)) (e : MrEntry) (cands : List MrEntry)
    (child_index : Nat) : String × String :=
  let cands1 :=
    match eqtp_parent_map.lookup e.eqtp with
    | some expected =>
      let filtered := cands.filter (fun c => c.eqtp = expected)
      if filtered ≠ [] then filtered else cands
    | none => cands
  let sortedC := pySorted candSortLe cands1
  let cc := (counts.lookup e.cfgl).getD 0
  let chosen :=
    if sortedC.length ≥ cc then sortedC.getD child_index default
    else sortedC.getD (child_index % sortedC.length) default
  (pyOrS chosen.itno e.hiit, pyOrS chosen.sern e.hisn)

/-- Assembles one preview row. -/
def mr_preview_of (e : MrEntry) (pc parent_itno parent_sern : String) : MrPreview :=
  { cfgl := e.cfgl, itno := e.itno, sern := e.sern, remd := e.remd, rmts := e.rmts,
    parent_cfgl := pc, parent_itno := parent_itno, parent_sern := parent_sern }

/-- The main loop of `_build_mrouhi_preview_rows`, threading the (mutated)
`cfgl_map` and the per-path child index counters. -/
def preview_loop : List MrEntry → CMap → List (String × Nat) → List (String × Nat) →
    List MrPreview
  | [], _, _, _ => []
  | e :: rest, m, counts, childIdx =>
    let pc := parent_cfgl_for e.cfgl
    let res := preview_candidates m counts e
    if res.1 = [] then
      mr_preview_of e pc e.hiit e.hisn :: preview_loop rest res.2 counts childIdx
    else
      let ci := (childIdx.lookup e.cfgl).getD 0
      let ps := preview_choose counts e res.1 ci
      mr_preview_of e pc ps.1 ps.2 ::
        preview_loop rest res.2 counts (amset childIdx e.cfgl (ci + 1))

/-- Transcribes `_build_mrouhi_preview_rows` minus the I/O row loading
(`_load_mrouhi_rows`): the raw records are taken as input. -/
def build_mrouhi_preview_rows (rows : List StrMap) : List MrPreview :=
  let entries := mrouhi_entries rows
  let m0 := mr_cfgl_map entries
  let counts := mr_cfgl_counts m0
  let sortedE := pySorted mrDescLe entries
  preview_loop sortedE m0 counts []

/-- The map and child-index state of `preview_loop` just before processing
the n-th entry. -/
def preview_state : List MrEntry → CMap → List (String × Nat) → List (String × Nat) →
    Nat → CMap × List (String × Nat)
  | _, m, _, ci, 0 => (m, ci)
  | [], m, _, ci, _ + 1 => (m, ci)
  | e :: rest, m, counts, ci, n + 1 =>
    let res := preview_candidates m counts e
    if res.1 = [] then preview_state rest res.2 counts ci n
    else preview_state rest res.2 counts (amset ci e.cfgl (((ci.lookup e.cfgl).getD 0) + 1)) n

/-- One filtered record of `_build_mrouhi_parent_candidates`. -/
structure PcEntry where
  cfgl : String
  itno : String
  sern : String
  eqtp : String
deriving DecidableEq, Inhabited

/-- Candidate sort of `_build_mrouhi_parent_candidates`. -/
def pcCandSortLe (a b : PcEntry) : Bool := !(strPairLt (b.sern, b.itno) (a.sern, a.itno))

/-- The filtered entries of `_build_mrouhi_parent_candidates`. -/
def pc_entries (rows : List StrMap) : List PcEntry :=
  rows.filterMap (fun r =>
    let cfgl := pyStrip (mgetD r "CFGL")
    if cfgl = "" then none
    else if remd_is_blank (pyStrip (mgetD r "REMD")) then none
    else some ⟨cfgl, pyStrip (mgetD r "ITNO"), pyStrip (mgetD r "SERN"),
      pyStrip (mgetD r "EQTP")⟩)

/-- Transcribes `_build_mrouhi_parent_candidates` minus the I/O row loading:
per child path, the (copied, hence unmutated) widened, filtered and sorted
parent-candidate list; later entries with the same path overwrite. -/
def build_mrouhi_parent_candidates (rows : List StrMap) : List (String × List PcEntry) :=
  let entries := pc_entries rows
  let m : List (String × List PcEntry) := entries.foldl (fun m e => mapAppend m e.cfgl e) []
  let counts := m.map (fun kv => (kv.1, kv.2.length))
  entries.foldl (fun cmap e =>
    let pc := parent_cfgl_for e.cfgl
    if pc = "" then cmap
    else
      let base := mapList m pc
      let child_count := (counts.lookup e.cfgl).getD 0
      let cands0 :=
        if child_count > base.length then
          let ppfx := if pyIn "-" pc then pyBeforeLast '-' pc else ""
          if ppfx ≠ "" then base ++ widenSiblings m pc ppfx ((cfgl_segments pc).length)
          else base
        else base
      let cands1 :=
        match eqtp_parent_map.lookup e.eqtp with
        | some expected =>
          let filtered := cands0.filter (fun c => c.eqtp = expected)
          if filtered ≠ [] then filtered else cands0
        | none => cands0
      amset cmap e.cfgl (pySorted pcCandSortLe cands1)) []


/-- A raw hierarchy record whose computed parent path ("1") has no
candidates: its raw parent fields are `HIIT = "W1"`, `HISN = "S1"`. -/
def c6row : StrMap :=
  [("CFGL", "1-1"), ("HIIT", "W1"), ("HISN", "S1"), ("ITNO", "X"), ("SERN", "XS"),
   ("REMD", "20240101")]


/-- The widening pass of `preview_candidates` is not triggered for an entry:
its group is covered by the candidates stored at its parent path. -/
def mr_no_widen (m0 : CMap) (counts : List (String × Nat)) (e : MrEntry) : Prop :=
  parent_cfgl_for e.cfgl ≠ "" →
    (counts.lookup e.cfgl).getD 0 ≤ (mapList m0 (parent_cfgl_for e.cfgl)).length

instance (m0 : CMap) (counts : List (String × Nat)) (e : MrEntry) :
    Decidable (mr_no_widen m0 counts e) := by
  unfold mr_no_widen
  infer_instance

/-- Concrete sqlite row used to instantiate the C5 theorem. -/
def c5row : StrMap :=
  [("ITNO", "P_123"), ("SER2", "AB-0456"), ("WAGEN_ITNO", "W_123"), ("WAGEN_SERN", "0456")]

/-- The payload on which the generic error scan of the classifier crashes:
a `Messages` dict whose `Message` list is empty. -/
def c2CrashPayload : JVal := .obj [("Messages", .obj [("Message", .arr [])])]

/-- A payload carrying both the idempotency-conflict code and an
error-shaped field. -/
def c2IdemErrPayload : JVal :=
  .obj [("MIResponse", .obj [("@code", .str "MO12524"), ("ErrorMessage", .str "boom")])]

/-- Row constructor for the C7 scenarios: a hierarchy row with the given
configuration path, item, and serial, a non-blank removal date and wagon
fallbacks. -/
def mkRow (cfgl itno sern : String) : StrMap :=
  [("CFGL", cfgl), ("ITNO", itno), ("SERN", sern), ("HIIT", "W"), ("HISN", "WS"),
   ("REMD", "20240101")]

/-- C7 counterexample input: the `1-1-2` group has three children but the
parent path `1-1` stores only a single candidate, so the widening pass
fires and mutates the shared stored list. -/
def c7raw : List StrMap :=
  [mkRow "1-1" "QI" "QS", mkRow "1-2" "SI" "AS",
   mkRow "1-1-2" "X1" "XS1", mkRow "1-1-2" "X2" "XS2", mkRow "1-1-2" "X3" "XS3"]

/-- C7 witness input: two children of `1-2` and two candidates at the
parent path `1`, so no widening occurs anywhere. -/
def c7wraw : List StrMap :=
  [mkRow "1" "QI" "QS", mkRow "1" "RI" "RS",
   mkRow "1-2" "X1" "XS1", mkRow "1-2" "X2" "XS2"]

/-! ## Step executor embeddings (`_effective_dry_run`, parameter builders,
`renumber_run`, `renumber_cms100`, `_run_rollback_job`) -/

/-- Transcribes `_effective_dry_run`: the `MOS125_DRY_RUN` module flag, which
a non-blank `SPAREPART_PRD_DRY_RUN` override replaces on the `prd`
environment. -/
def effective_dry_run (normalizedEnv : String) (override : Option String)
    (mos125DryRun : Bool) : Bool :=
  if normalizedEnv = "prd" then
    match override with
    | some o =>
      if pyStrip o ≠ "" then
        (["1", "true", "yes", "y"] : List String).contains (pyLower (pyStrip o))
      else mos125DryRun
    | none => mos125DryRun
  else mos125DryRun

/-- Transcribes `_build_mos125_params` (modes `out`, `in` and `rollback`).
The `try/except ValueError` of the rollback time arithmetic can never fire
because the parsed slices consist of digits only. -/
def build_mos125_params (row : StrMap) (mode : String) : StrMap :=
  let cfgr := row_value row ["CFGL", "MFGL"]
  let level := hierarchy_level cfgr
  let base_trtm := 10000 + level * 1000
  let params : StrMap :=
    [("RITP", "UMA"), ("RESP", "CHRUPP"),
     ("TRDT", format_yyyymmdd (row_value row ["UMBAU_DATUM"])),
     ("WHLO", "ZUM"), ("RSC4", "UMB"), ("TRTM", toString base_trtm)]
  if mode = "in" then
    let new_baureihe := row_value row ["NEW_BAUREIHE"]
    let new_sern := row_value row ["NEW_SERN"]
    let cfgr_value := pyStrip cfgr
    let top_level := cfgr_value ≠ "" ∧ cfgr_value.data.all Char.isDigit ∧
      digitsToNat cfgr_value.data ∈ [1, 2, 3, 4]
    let parent0_itno := row_value row ["MTRL"]
    let parent0_sern := row_value row ["SERN"]
    let pp :=
      if top_level then
        (pyOrS new_baureihe (pyOrS (row_value row ["WAGEN_ITNO"]) parent0_itno),
         pyOrS new_sern (pyOrS (row_value row ["WAGEN_SERN"]) parent0_sern))
      else
        let parent_row : StrMap :=
          [("ITNO", parent0_itno), ("SER2", parent0_sern),
           ("WAGEN_ITNO", row_value row ["WAGEN_ITNO"]),
           ("WAGEN_SERN", row_value row ["WAGEN_SERN"])]
        let u := compute_part_updates parent_row new_sern new_baureihe
        (pyOrS u.1 parent0_itno, pyOrS u.2 parent0_sern)
    let part_itno := pyOrS (row_value row ["NEW_PART_ITNO"]) (row_value row ["ITNO"])
    let part_ser2 := pyOrS (row_value row ["NEW_PART_SER2"]) (row_value row ["SER2"])
    mset (mset (mset (mset (mset (mset (mset (mset params
      "RITP" "UME") "TRTM" (toString (base_trtm + 10))) "CFGL" cfgr) "TWSL" "EINBAU")
      "NHAI" pp.1) "NHSI" pp.2) "ITNI" part_itno) "BANI" part_ser2
  else if mode = "rollback" then
    let rmts_raw := row_value row ["RMTS"]
    let rmts_digits := rmts_raw.data.filter Char.isDigit
    let trtm_value :=
      if rmts_raw ≠ "" ∧ rmts_digits ≠ [] then
        let padded := List.replicate (6 - rmts_digits.length) '0' ++ rmts_digits
        let hours := digitsToNat (padded.take 2)
        let minutes := digitsToNat ((padded.drop 2).take 2)
        let seconds := digitsToNat ((padded.drop 4).take 2)
        let total_seconds := hours * 3600 + minutes * 60 + seconds + 60
        let h := (total_seconds / 3600) % 24
        let m := (total_seconds % 3600) / 60
        let s := total_seconds % 60
        toString (h * 10000 + m * 100 + s)
      else ""
    mset (mset (mset (mset (mset (mset (mset (mset params
      "RITP" "UME") "TRTM" (pyOrS trtm_value (toString (base_trtm + 10)))) "CFGL" cfgr)
      "TWSL" "EINBAU") "NHAI" (row_value row ["MTRL"])) "NHSI" (row_value row ["SERN"]))
      "ITNI" (row_value row ["ITNO"])) "BANI" (row_value row ["SER2"])
  else
    mset (mset (mset (mset (mset (mset params
      "CFGR" cfgr) "TWSL" "AUSBAU") "NHAR" (row_value row ["MTRL"]))
      "NHSR" (row_value row ["SERN"])) "ITNR" (row_value row ["ITNO"]))
      "BANR" (row_value row ["SER2"])

/-- Transcribes `_build_cms100_params`. -/
def build_cms100_params (plpn : String) : StrMap :=
  [("QOPLPN", plpn), ("QOPLPS", "0"), ("QOPLP2", "0")]

/-- Transcribes `_build_ips_mos100_params`. -/
def build_ips_mos100_params (row : StrMap) : StrMap :=
  let itno := row_value row ["ITNO"]
  let ser2 := row_value row ["SER2"]
  [("WorkOrderNumber", row_value row ["MWNO"]), ("Product", itno),
   ("NewItemNumber", pyOrS (row_value row ["NEW_PART_ITNO"]) itno),
   ("NewLotNumber", pyOrS (row_value row ["NEW_PART_SER2"]) ser2)]

/-- Python `d.get(k1) or d.get(k2) or ...` over the given keys. -/
def jGetOrChain (fs : List (String × JVal)) : List String → JVal
  | [] => .null
  | k :: rest => pyOrJ (objGet fs k) (jGetOrChain fs rest)

/-- One record of `_extract_mi_rows`: the `NameValue` entries folded into a
name-to-value dict (a `None` value reads as `""`). -/
def mi_record_row (recfs : List (String × JVal)) : List (String × JVal) :=
  let nv := jGetOrChain recfs ["NameValue", "nameValue"]
  let nvl := if jTruthy nv then (match nv with | .arr l => l | v => [v]) else []
  nvl.foldl (fun rowAcc entry =>
    match entry with
    | .obj efs =>
      let name := pyOrJ (objGet efs "Name") (objGet efs "name")
      if jTruthy name = false then rowAcc
      else
        let value := match objGet efs "Value" with | .null => objGet efs "value" | v => v
        amset rowAcc (pyStrJ name) (match value with | .null => .str "" | v => v)
    | _ => rowAcc) []

/-- The record scan of `_extract_mi_rows` on the fields of a response dict. -/
def extract_mi_rows_from (rfs : List (String × JVal)) : List (List (String × JVal)) :=
  let records := jGetOrChain rfs ["MIRecord", "MIRecords", "MIResponse"]
  let recl := if jTruthy records then (match records with | .arr l => l | v => [v]) else []
  recl.foldr (fun record acc =>
    match record with
    | .obj recfs =>
      let row := mi_record_row recfs
      if row.isEmpty then acc else row :: acc
    | _ => acc) []

/-- Transcribes `_extract_mi_rows` on a payload dict; every caller wraps a
response dict as `{"response": response}`, so a non-dict `response` value is
the falsy `{}` default. -/
def extract_mi_rows (payload : List (String × JVal)) : List (List (String × JVal)) :=
  match pyOrJ (objGet payload "response") (.obj []) with
  | .obj fs => extract_mi_rows_from fs
  | _ => []

/-- The work-order keys probed by `_extract_mwno`. -/
def mwnoKeys : List String := ["QOMWNO", "qomwno", "MWNO", "mwno", "WorkOrderNumber"]

/-- The row loop of `_extract_mwno`: the first row holding a truthy
work-order value. -/
def rows_first_mwno : List (List (String × JVal)) → Option String
  | [] => none
  | r :: rest =>
    let v := jGetOrChain r mwnoKeys
    if jTruthy v then some (pyStrJ v) else rows_first_mwno rest

/-- The top-level key loop of `_extract_mwno`. -/
def keys_first_val (rfs : List (String × JVal)) : List String → Option String
  | [] => none
  | k :: rest =>
    let v := objGet rfs k
    if jTruthy v then some (pyStrJ v) else keys_first_val rfs rest

/-- Transcribes `_extract_mwno`. -/
def extract_mwno (response : JVal) : String :=
  match response with
  | .obj rfs =>
    match rows_first_mwno (extract_mi_rows [("response", .obj rfs)]) with
    | some s => s
    | none => (keys_first_val rfs mwnoKeys).getD ""
  | _ => ""

/-- One `_append_api_log` record: the arguments the workers pass (`err` is
the `error` argument, `none` for Python `None`; `statusLabel` the optional
`status` keyword). -/
structure ApiLog where
  action : String
  params : StrMap
  response : JVal
  ok : Bool
  err : Option String
  dryRun : Bool
  statusLabel : Option String

/-- A remote `call_m3_mi_get` stub: call index and request parameters to a
response or a raised exception message. -/
abbrev Oracle := Nat → StrMap → Except String JVal

/-- The message of the `UnboundLocalError` that the misindented block of
`_mi_error_message` raises (the interpreter wording is immaterial to the
theorems). -/
def msgTypeUnboundMsg : String := "local variable 'msg_type' referenced before assignment"

/-- One row of the `renumber_run` OUT worker: `(out, ok)`, the remote calls
issued, the api-log entry and the next call index. The `SELECT` of this
worker has no `WHERE` clause, so the caller passes every table row. -/
def run_out_row (dry_run : Bool) (oracle : Oracle) (n : Nat) (row : StrMap) :
    (String × Bool) × List StrMap × ApiLog × Nat :=
  let params := build_mos125_params row "out"
  if mgetD params "TRDT" = "" then
    (("ERROR: UMBAU_DATUM fehlt", false), [],
      ⟨"ausbau", params, .obj [("error", .str "UMBAU_DATUM fehlt")], false,
        some "UMBAU_DATUM fehlt", dry_run, none⟩, n)
  else if dry_run then
    (("DRYRUN", true), [],
      ⟨"ausbau", params, .obj [("dry_run", .bool true)], true, none, dry_run, none⟩, n)
  else
    match oracle n params with
    | .ok response =>
      match mi_error_message response with
      | .ok em =>
        if em ≠ "" then
          (("ERROR: " ++ em, false), [params],
            ⟨"ausbau", params, response, false, some em, dry_run, none⟩, n + 1)
        else
          (("OK", true), [params],
            ⟨"ausbau", params, response, true, some "", dry_run, none⟩, n + 1)
      | .error _ =>
        (("ERROR: " ++ msgTypeUnboundMsg, false), [params],
          ⟨"ausbau", params, .obj [("error", .str msgTypeUnboundMsg)], false,
            some msgTypeUnboundMsg, dry_run, none⟩, n + 1)
    | .error exc =>
      (("ERROR: " ++ exc, false), [params],
        ⟨"ausbau", params, .obj [("error", .str exc)], false, some exc, dry_run, none⟩, n + 1)

/-- The row loop of the `renumber_run` OUT worker. -/
def run_out_loop (dry_run : Bool) (oracle : Oracle) : List StrMap → Nat →
    List (StrMap × String × Bool) × List StrMap × List ApiLog
  | [], _ => ([], [], [])
  | row :: rest, n =>
    let step := run_out_row dry_run oracle n row
    let tail := run_out_loop dry_run oracle rest step.2.2.2
    ((row, step.1) :: tail.1, step.2.1 ++ tail.2.1, step.2.2.1 :: tail.2.2)

/-- The visible outcome of the `renumber_run` OUT worker. -/
structure OutWorkerRes where
  results : List (StrMap × String × Bool)
  calls : List StrMap
  apiLogs : List ApiLog
  jobStatus : String

/-- Transcribes the `renumber_run` OUT worker from the row loop on: the
`_finish_job(..., "success", ...)` after the loop runs unconditionally. -/
def renumber_run_worker (rows : List StrMap) (dry_run : Bool) (oracle : Oracle) :
    OutWorkerRes :=
  let t := run_out_loop dry_run oracle rows 0
  ⟨t.1, t.2.1, t.2.2, "success"⟩

/-- One row of the `renumber_install` IN worker: `(status, ok)`, the remote
calls issued, the api-log entry and the next call index. Like the OUT
worker, the `SELECT` of this worker has no `WHERE` clause (it only orders
descending), so the caller passes every table row. -/
def run_in_row (dry_run : Bool) (oracle : Oracle) (n : Nat) (row : StrMap) :
    (String × Bool) × List StrMap × ApiLog × Nat :=
  let params := build_mos125_params row "in"
  if mgetD params "TRDT" = "" then
    (("ERROR: UMBAU_DATUM fehlt", false), [],
      ⟨"einbau", params, .obj [("error", .str "UMBAU_DATUM fehlt")], false,
        some "UMBAU_DATUM fehlt", dry_run, none⟩, n)
  else if dry_run then
    (("DRYRUN", true), [],
      ⟨"einbau", params, .obj [("dry_run", .bool true)], true, none, dry_run, none⟩, n)
  else
    match oracle n params with
    | .ok response =>
      match mi_error_message response with
      | .ok em =>
        if em ≠ "" then
          (("ERROR: " ++ em, false), [params],
            ⟨"einbau", params, response, false, some em, dry_run, none⟩, n + 1)
        else
          (("OK", true), [params],
            ⟨"einbau", params, response, true, some "", dry_run, none⟩, n + 1)
      | .error _ =>
        (("ERROR: " ++ msgTypeUnboundMsg, false), [params],
          ⟨"einbau", params, .obj [("error", .str msgTypeUnboundMsg)], false,
            some msgTypeUnboundMsg, dry_run, none⟩, n + 1)
    | .error exc =>
      (("ERROR: " ++ exc, false), [params],
        ⟨"einbau", params, .obj [("error", .str exc)], false, some exc, dry_run, none⟩, n + 1)

/-- The row loop of the `renumber_install` IN worker. -/
def run_in_loop (dry_run : Bool) (oracle : Oracle) : List StrMap → Nat →
    List (StrMap × String × Bool) × List StrMap × List ApiLog
  | [], _ => ([], [], [])
  | row :: rest, n =>
    let step := run_in_row dry_run oracle n row
    let tail := run_in_loop dry_run oracle rest step.2.2.2
    ((row, step.1) :: tail.1, step.2.1 ++ tail.2.1, step.2.2.1 :: tail.2.2)

/-- Transcribes the `renumber_install` IN worker from the row loop on (the
rows arrive in the descending `SEQ` order of its `SELECT`); the closing
`_finish_job(..., "success", ...)` runs unconditionally. -/
def renumber_install_worker (rows : List StrMap) (dry_run : Bool) (oracle : Oracle) :
    OutWorkerRes :=
  let t := run_in_loop dry_run oracle rows 0
  ⟨t.1, t.2.1, t.2.2, "success"⟩

/-- A sqlite table: rowid paired with the column map. -/
abbrev DbTable := List (Nat × StrMap)

/-- The `_load_rows` selection of `renumber_cms100`:
`WHERE IFNULL("PLPN",'') <> '' AND IFNULL("MWNO", '') = ''`. -/
def cms100_select (table : DbTable) : DbTable :=
  table.filter (fun p => mgetD p.2 "PLPN" != "" && mgetD p.2 "MWNO" == "")

/-- The per-row `UPDATE ... SET "MWNO"=? WHERE rowid=?`. -/
def table_set_mwno (table : DbTable) (seq : Nat) (mwno : String) : DbTable :=
  table.map (fun p => if p.1 = seq then (p.1, mset p.2 "MWNO" mwno) else p)

/-- The call outcome of one `renumber_cms100` row: success flag, the
`error_message`, the response value, calls issued and next call index. -/
def cms100_row (dry_run : Bool) (oracle : Oracle) (n : Nat) (row : StrMap) :
    Bool × Option String × JVal × List StrMap × Nat :=
  let plpn := row_value row ["PLPN"]
  let params := build_cms100_params plpn
  if plpn = "" then
    (false, some "PLPN fehlt", .obj [("error", .str "PLPN fehlt")], [], n)
  else if dry_run then
    (true, none, .obj [("dry_run", .bool true)], [], n)
  else
    match oracle n params with
    | .ok r =>
      match mi_error_message r with
      | .ok em => ((em == ""), some em, r, [params], n + 1)
      | .error _ =>
        (false, some msgTypeUnboundMsg, .obj [("error", .str msgTypeUnboundMsg)],
          [params], n + 1)
    | .error exc => (false, some exc, .obj [("error", .str exc)], [params], n + 1)

/-- The per-round bookkeeping of `renumber_cms100`. -/
structure CmsRound where
  table : DbTable
  n : Nat
  calls : List StrMap
  logs : List ApiLog
  okCount : Nat
  errCount : Nat

/-- One retry round of `renumber_cms100` over the selected rows: every row
gets its `MWNO` column set to the extracted value and its api-log entries
appended (a second `mos170_plpn_missing_mwno` entry whenever the value is
missing). -/
def cms100_round (dry_run : Bool) (oracle : Oracle) :
    DbTable → DbTable → Nat → CmsRound
  | [], table, n => ⟨table, n, [], [], 0, 0⟩
  | (seq, row) :: rest, table, n =>
    let pr := cms100_row dry_run oracle n row
    let ok := pr.1
    let errm := pr.2.1
    let response := pr.2.2.1
    let rowCalls := pr.2.2.2.1
    let n2 := pr.2.2.2.2
    let mwno := if ok then extract_mwno response else ""
    let params := build_cms100_params (row_value row ["PLPN"])
    let log_response : JVal := .obj [("qomwno", .str mwno), ("response", response)]
    let log1 : ApiLog := ⟨"mos170_plpn", params, log_response, ok, errm, dry_run, none⟩
    let logs :=
      if mwno = "" then
        [log1, ⟨"mos170_plpn_missing_mwno", params, log_response, false,
          some "QOMWNO fehlt", dry_run, none⟩]
      else [log1]
    let t := cms100_round dry_run oracle rest (table_set_mwno table seq mwno) n2
    ⟨t.table, t.n, rowCalls ++ t.calls, logs ++ t.logs,
      (if ok then 1 else 0) + t.okCount, (if ok then 0 else 1) + t.errCount⟩

/-- The running state of the `renumber_cms100` worker. -/
structure CmsSt where
  table : DbTable
  n : Nat
  attempt : Nat
  rounds : Nat
  total : Nat
  processed : Nat
  okCount : Nat
  errCount : Nat
  calls : List StrMap
  apiLogs : List ApiLog
  jobLogs : List String
  sleeps : List Nat
  jobStatus : String

/-- The retry `while` of `renumber_cms100`. The fuel argument only bounds
the recursion: the caller passes `maxRetry + 1`, which covers every
terminating run of the source loop (the loop re-enters only while
`attempt < maxRetry` when the retry cap is enabled). -/
def cms100_loop (dry_run : Bool) (oracle : Oracle) (maxRetry delay : Nat) :
    Nat → DbTable → CmsSt → CmsSt
  | 0, _, st => st
  | fuel + 1, cmsRows, st =>
    if cmsRows = [] then st
    else if maxRetry ≠ 0 ∧ st.attempt > maxRetry then
      { st with jobLogs := st.jobLogs ++
          ["MOS170 PLPN: Abbruch nach " ++ toString maxRetry ++ " Versuchen, " ++
            toString cmsRows.length ++ " ohne MWNO."] }
    else
      let st1 := { st with jobLogs := st.jobLogs ++
        ["MOS170 PLPN: Versuch " ++ toString st.attempt ++ " für " ++
          toString cmsRows.length ++ " Positionen."] }
      let r := cms100_round dry_run oracle cmsRows st1.table st1.n
      let st2 := { st1 with
                   table := r.table, n := r.n, rounds := st1.rounds + 1,
                   processed := st1.processed + cmsRows.length,
                   okCount := st1.okCount + r.okCount, errCount := st1.errCount + r.errCount,
                   calls := st1.calls ++ r.calls, apiLogs := st1.apiLogs ++ r.logs }
      let next := cms100_select st2.table
      if next = [] then st2
      else if dry_run then
        { st2 with jobLogs := st2.jobLogs ++
            ["MOS170 PLPN: Dry-Run aktiv, keine weiteren Versuche."] }
      else if maxRetry ≠ 0 ∧ st2.attempt ≥ maxRetry then
        { st2 with jobLogs := st2.jobLogs ++
            ["MOS170 PLPN: keine MWNO nach " ++ toString maxRetry ++ " Versuchen."] }
      else
        cms100_loop dry_run oracle maxRetry delay fuel next
          { st2 with
            total := st2.total + next.length,
            jobLogs := st2.jobLogs ++
              ["Warte " ++ toString delay ++ " Sekunden auf ERP ..."],
            sleeps := st2.sleeps ++ [delay],
            attempt := st2.attempt + 1 }

/-- Transcribes the `renumber_cms100` worker from the first selection on;
the closing `_finish_job(..., "success", ...)` runs unconditionally, so the
job status is `success` on every terminating run. The retry cap and delay
are the `CMS100_RETRY_MAX` / `CMS100_RETRY_DELAY_SEC` module settings
(environment-configurable, defaults 20 and 3). -/
def renumber_cms100_worker (table : DbTable) (dry_run : Bool) (oracle : Oracle)
    (maxRetry delay : Nat) : CmsSt :=
  let rows0 := cms100_select table
  cms100_loop dry_run oracle maxRetry delay (maxRetry + 1) rows0
    { table := table, n := 0, attempt := 1, rounds := 0, total := rows0.length,
      processed := 0, okCount := 0, errCount := 0, calls := [], apiLogs := [],
      jobLogs := ["MOS170 PLPN: " ++ toString rows0.length ++ " Positionen."],
      sleeps := [], jobStatus := "success" }

/-- The `renumber_mos100` selection: `WHERE IFNULL("MWNO", '') <> '' AND
(IFNULL("NEW_PART_ITNO", '') <> '' OR IFNULL("NEW_PART_SER2", '') <> '')
AND IFNULL("MOS100_STATUS", '') = ''`. -/
def mos100_select (table : DbTable) : DbTable :=
  table.filter (fun p => mgetD p.2 "MWNO" != "" &&
    (mgetD p.2 "NEW_PART_ITNO" != "" || mgetD p.2 "NEW_PART_SER2" != "") &&
    mgetD p.2 "MOS100_STATUS" == "")

/-- The idempotency-conflict codes of `_run_rollback_job`. -/
def rollback_retry_codes : List String := ["MO12524", "MO12528"]

/-- The target selection of `_run_rollback_job`: rows whose `OUT` status is
`OK` or `DRYRUN`, sorted by `seq` (rowid). -/
def rollback_targets (rows : DbTable) : DbTable :=
  pySorted (fun a b => decide (a.1 ≤ b.1))
    (rows.filter (fun p => row_value p.2 ["OUT"] == "OK" || row_value p.2 ["OUT"] == "DRYRUN"))

/-- The reduced parameter dict `_run_rollback_job` logs. -/
def rollback_log_params (params : StrMap) : StrMap :=
  [("ITNO", mgetD params "ITNI"), ("SERN", mgetD params "BANI"),
   ("PARENT_ITNO", mgetD params "NHAI"), ("PARENT_SERN", mgetD params "NHSI")]

/-- The outcome of one `_run_rollback_job` row. -/
structure RbRes where
  status : String
  ok : Bool
  code : String
  params : StrMap
  calls : List StrMap
  logs : List ApiLog
  n : Nat

/-- The rollback status string derived from a `_mi_status` result. -/
def rollback_status_of (ok : Bool) (label : String) : String :=
  if ok then (if label = "OK_IDEMPOTENT" then "OK: bereits installiert" else label)
  else "ERROR: " ++ label

/-- The candidate retry loop of `_run_rollback_job`: skip the current
parent, re-issue the install per candidate, stop after the first response
whose code is outside the retry pair (an exception also ends the loop, via
the enclosing `except`). -/
def rollback_retry_loop (oracle : Oracle) (dry_run : Bool) (cur : String × String) :
    List PcEntry → RbRes → RbRes
  | [], acc => acc
  | cand :: rest, acc =>
    if (cand.itno, cand.sern) = cur then rollback_retry_loop oracle dry_run cur rest acc
    else
      let params := mset (mset acc.params "NHAI" cand.itno) "NHSI" cand.sern
      match oracle acc.n params with
      | .error exc =>
        { acc with
          params := params, status := "ERROR: " ++ exc, ok := false,
          calls := acc.calls ++ [params], n := acc.n + 1,
          logs := acc.logs ++ [⟨"rollback", rollback_log_params params,
            .obj [("error", .str exc)], false, some exc, dry_run, some "ERROR"⟩] }
      | .ok response =>
        match mi_status response with
        | .error _ =>
          { acc with
            params := params, status := "ERROR: " ++ msgTypeUnboundMsg, ok := false,
            calls := acc.calls ++ [params], n := acc.n + 1,
            logs := acc.logs ++ [⟨"rollback", rollback_log_params params,
              .obj [("error", .str msgTypeUnboundMsg)], false, some msgTypeUnboundMsg,
              dry_run, some "ERROR"⟩] }
        | .ok st3 =>
          let ok1 := st3.1
          let label := st3.2.1
          let errm := st3.2.2
          let code := (mi_extract_code_message response).1
          let acc2 : RbRes :=
            { status := rollback_status_of ok1 label, ok := ok1, code := code,
              params := params, calls := acc.calls ++ [params],
              logs := acc.logs ++ [⟨"rollback", rollback_log_params params, response, ok1,
                some errm, dry_run, some label⟩],
              n := acc.n + 1 }
          if code ∈ rollback_retry_codes then rollback_retry_loop oracle dry_run cur rest acc2
          else acc2

/-- One `_run_rollback_job` row: the first install call, then — only on a
retry-pair code with more than one stored candidate — the candidate retry
loop. -/
def rollback_row (oracle : Oracle) (dry_run : Bool)
    (candMap : List (String × List PcEntry)) (n : Nat) (row : StrMap) : RbRes :=
  let params := build_mos125_params row "in"
  let lp := rollback_log_params params
  if mgetD params "TRDT" = "" then
    { status := "ERROR: UMBAU_DATUM fehlt", ok := false, code := "", params := params,
      calls := [],
      logs := [⟨"rollback", lp, .obj [("error", .str "UMBAU_DATUM fehlt")], false,
        some "UMBAU_DATUM fehlt", dry_run, none⟩], n := n }
  else if dry_run then
    { status := "DRYRUN", ok := true, code := "", params := params, calls := [],
      logs := [⟨"rollback", lp, .obj [("dry_run", .bool true)], true, none, dry_run, none⟩],
      n := n }
  else
    match oracle n params with
    | .error exc =>
      { status := "ERROR: " ++ exc, ok := false, code := "", params := params,
        calls := [params],
        logs := [⟨"rollback", lp, .obj [("error", .str exc)], false, some exc, dry_run,
          some "ERROR"⟩], n := n + 1 }
    | .ok response =>
      match mi_status response with
      | .error _ =>
        { status := "ERROR: " ++ msgTypeUnboundMsg, ok := false, code := "",
          params := params, calls := [params],
          logs := [⟨"rollback", lp, .obj [("error", .str msgTypeUnboundMsg)], false,
            some msgTypeUnboundMsg, dry_run, some "ERROR"⟩], n := n + 1 }
      | .ok st3 =>
        let ok1 := st3.1
        let label := st3.2.1
        let errm := st3.2.2
        let code := (mi_extract_code_message response).1
        let acc : RbRes :=
          { status := rollback_status_of ok1 label, ok := ok1, code := code,
            params := params, calls := [params],
            logs := [⟨"rollback", lp, response, ok1, some errm, dry_run, some label⟩],
            n := n + 1 }
        let cfgl := mgetD params "CFGL"
        let candidates := if cfgl ≠ "" then mapList candMap cfgl else []
        if code ∈ rollback_retry_codes ∧ candidates.length > 1 then
          rollback_retry_loop oracle dry_run (mgetD params "NHAI", mgetD params "NHSI")
            candidates acc
        else acc

/-- The retry rule in the words of the claim: starting at call index `n0`
over a list of `len` untried candidates, with `inPair i` telling whether the
i-th response carries an idempotency-conflict code, the number of candidates
attempted before stopping. -/
def rollbackTriedSpec (inPair : Nat → Bool) : Nat → Nat → Nat
  | _, 0 => 0
  | n0, len + 1 => if inPair n0 then 1 + rollbackTriedSpec inPair (n0 + 1) len else 1

/-- A remote stub that always returns an empty (`null`) response. -/
def noopOracle : Oracle := fun _ _ => .ok .null

/-- Concrete table instantiating the step selections: a `cms100` candidate,
a `mos100` candidate, and a row with `MWNO` already set. -/
def c1tab : DbTable :=
  [(1, [("PLPN", "P1")]),
   (2, [("MWNO", "W1"), ("NEW_PART_ITNO", "N1"), ("MOS100_STATUS", "")]),
   (3, [("PLPN", "P3"), ("MWNO", "W3")])]

/-- A row whose OUT and IN steps both already reported `OK` (with a valid
removal date). -/
def c1row : StrMap :=
  [("CFGL", "1"), ("ITNO", "P1"), ("SER2", "S1"), ("MTRL", "M"), ("SERN", "MS"),
   ("UMBAU_DATUM", "20240102"), ("OUT", "OK"), ("IN", "OK")]

/-- A row with a missing `UMBAU_DATUM`. -/
def c4row : StrMap := [("CFGL", "1"), ("ITNO", "P1"), ("OUT", "OK")]

/-- A row with a valid `UMBAU_DATUM`. -/
def c4wrow : StrMap := [("CFGL", "1"), ("ITNO", "P1"), ("UMBAU_DATUM", "20240102")]

/-- A one-row table pending the work-order lookup. -/
def c3tab : DbTable := [(1, [("PLPN", "P1")])]

/-- An MI payload carrying the given response code. -/
def c9pay (c : String) : JVal := .obj [("MIResponse", .obj [("@code", .str c)])]

/-- Three parent candidates for the rollback retry scenario; the first is
the currently used parent. -/
def c9cands : List PcEntry := [⟨"1", "M1", "MS1", ""⟩, ⟨"1", "C2", "CS2", ""⟩, ⟨"1", "C3", "CS3", ""⟩]

/-- A stub whose first two calls answer with the idempotency-conflict code
and whose later calls answer with a code outside the retry pair. -/
def c9oracle : Oracle := fun i _ => .ok (c9pay (if i ≤ 1 then "MO12524" else "MO12527"))

/-- The per-row accumulator state after the first install call of the
rollback scenario. -/
def c9acc : RbRes :=
  { status := "OK: bereits installiert", ok := true, code := "MO12524",
    params := [("NHAI", "M1"), ("NHSI", "MS1")],
    calls := [[("NHAI", "M1"), ("NHSI", "MS1")]], logs := [], n := 1 }

/-! ## Theorems and supporting lemmas -/

theorem pySplitCharL_ne_nil (sep : Char) (l : List Char) : pySplitCharL sep l ≠ [] := by
  induction l with
  | nil => simp [pySplitCharL]
  | cons c t ih =>
    simp only [pySplitCharL]
    cases h : pySplitCharL sep t with
    | nil => exact absurd h ih
    | cons a r =>
      by_cases hc : c = sep <;> simp [hc]

theorem joinSepL_split (sep : Char) (l : List Char) :
    joinSepL sep (pySplitCharL sep l) = l := by
  induction l with
  | nil => simp [pySplitCharL, joinSepL]
  | cons c t ih =>
    simp only [pySplitCharL]
    cases h : pySplitCharL sep t with
    | nil => exact absurd h (pySplitCharL_ne_nil sep t)
    | cons a r =>
      rw [h] at ih
      by_cases hc : c = sep
      · subst hc
        simpa [joinSepL] using ih
      · simp only [if_neg hc]
        cases r with
        | nil => simpa [joinSepL] using ih
        | cons b rt => simpa [joinSepL] using ih


theorem sep_not_mem_last (sep : Char) (l : List Char) :
    ∀ init last, pySplitCharL sep l = init ++ [last] → sep ∉ last := by
  induction l with
  | nil =>
    intro init last h
    simp only [pySplitCharL] at h
    have : last = [] := by
      cases init with
      | nil => simpa using h.symm
      | cons a r =>
        exfalso
        have := congrArg List.length h
        simp at this
    simp [this]
  | cons c t ih =>
    intro init last h
    simp only [pySplitCharL] at h
    cases hsp : pySplitCharL sep t with
    | nil => exact absurd hsp (pySplitCharL_ne_nil sep t)
    | cons a r =>
      rw [hsp] at h
      by_cases hc : c = sep
      · rw [if_pos hc] at h
        cases init with
        | nil =>
          exfalso
          have := congrArg List.length h
          simp at this
        | cons i0 i2 =>
          simp only [List.cons_append, List.cons.injEq] at h
          exact ih i2 last (hsp.trans h.2)
      · rw [if_neg hc] at h
        simp only at h
        cases init with
        | nil =>
          simp only [List.nil_append, List.cons.injEq] at h
          intro hmem
          rw [← h.1] at hmem
          rcases List.mem_cons.mp hmem with h1 | h2
          · exact hc h1.symm
          · have hr0 : r = [] := h.2
            exact ih [] a (by rw [hsp, hr0]; simp) h2
        | cons i0 i2 =>
          simp only [List.cons_append, List.cons.injEq] at h
          exact ih (a :: i2) last (by rw [hsp, h.2]; simp)

theorem contains_iff_split_length (sep : Char) (l : List Char) :
    listContains [sep] l = true ↔ 2 ≤ (pySplitCharL sep l).length := by
  induction l with
  | nil => simp [listContains, pySplitCharL, List.isPrefixOf]
  | cons c t ih =>
    have hne := pySplitCharL_ne_nil sep t
    have h1 : 0 < (pySplitCharL sep t).length := List.length_pos.mpr hne
    by_cases hc : c = sep
    · have hsplit : pySplitCharL sep (c :: t) = [] :: pySplitCharL sep t := by
        simp only [pySplitCharL, if_pos hc]
      have hcont : listContains [sep] (c :: t) = true := by
        have hpre : [sep].isPrefixOf (c :: t) = true := by simp [List.isPrefixOf, hc]
        simp [listContains, hpre]
      rw [hsplit, hcont]
      simp only [List.length_cons, true_iff]
      omega
    · simp only [listContains, pySplitCharL, if_neg hc]
      have hpre : [sep].isPrefixOf (c :: t) = false := by
        simp [List.isPrefixOf]
        intro heq
        exact absurd heq.symm hc
      rw [hpre, Bool.false_or]
      cases hsp : pySplitCharL sep t with
      | nil => exact absurd hsp hne
      | cons a r =>
        rw [hsp] at ih
        simpa using ih

theorem joinSepL_append_singleton (sep : Char) (xs : List (List Char)) (y : List Char)
    (hxs : xs ≠ []) : joinSepL sep (xs ++ [y]) = joinSepL sep xs ++ sep :: y := by
  induction xs with
  | nil => exact absurd rfl hxs
  | cons a r ih =>
    cases r with
    | nil => simp [joinSepL]
    | cons b rt =>
      have h2 := ih (by simp)
      rw [List.cons_append] at h2
      have e1 : (a :: b :: rt) ++ [y] = a :: b :: (rt ++ [y]) := by simp
      rw [e1]
      have e2 : joinSepL sep (a :: b :: (rt ++ [y])) = a ++ sep :: joinSepL sep (b :: (rt ++ [y])) := rfl
      have e3 : joinSepL sep (a :: b :: rt) = a ++ sep :: joinSepL sep (b :: rt) := rfl
      rw [e2, h2, e3]
      simp

theorem dropWhile_append_of_all {p : Char → Bool} (xs ys : List Char)
    (h : ∀ x ∈ xs, p x = true) : (xs ++ ys).dropWhile p = ys.dropWhile p := by
  induction xs with
  | nil => simp
  | cons a r ih =>
    have ha : p a = true := h a (by simp)
    simp only [List.cons_append, List.dropWhile_cons, ha, if_pos]
    exact ih (fun x hx => h x (by simp [hx]))

theorem pyBeforeLast_eq_join_dropLast (sep : Char) (s : String)
    (hcont : pyIn ⟨[sep]⟩ s = true) :
    pyBeforeLast sep s = ⟨joinSepL sep ((pySplitCharL sep s.data).dropLast)⟩ := by
  obtain ⟨l⟩ := s
  have hcont2 : listContains [sep] l = true := hcont
  have hlen : 2 ≤ (pySplitCharL sep l).length := (contains_iff_split_length sep l).mp hcont2
  rcases List.eq_nil_or_concat (pySplitCharL sep l) with hnil | ⟨init, last, hconc⟩
  · exact absurd hnil (pySplitCharL_ne_nil sep l)
  · have hconc2 : pySplitCharL sep l = init ++ [last] := by simpa using hconc
    have hinit : init ≠ [] := by
      intro hni
      rw [hconc2, hni] at hlen
      simp at hlen
    have hlast : sep ∉ last := sep_not_mem_last sep l init last hconc2
    have hl : l = joinSepL sep init ++ sep :: last := by
      conv_lhs => rw [← joinSepL_split sep l, hconc2]
      exact joinSepL_append_singleton sep _ _ hinit
    have hdl : (pySplitCharL sep l).dropLast = init := by
      rw [hconc2]
      exact List.dropLast_concat
    rw [hdl]
    show (⟨((l.reverse.dropWhile (· ≠ sep)).drop 1).reverse⟩ : String) = _
    rw [hl]
    congr 1
    rw [List.reverse_append]
    have hrev : ∀ x ∈ last.reverse, (x ≠ sep : Bool) = true := by
      intro x hx
      simp only [List.mem_reverse] at hx
      simp only [ne_eq, decide_eq_true_eq]
      intro hxe
      exact hlast (hxe ▸ hx)
    rw [show (sep :: last).reverse = last.reverse ++ [sep] by simp,
        List.append_assoc, dropWhile_append_of_all _ _ hrev]
    simp

theorem joinDash_three (a b c : String) : joinDash [a, b, c] = a ++ "-" ++ b ++ "-" ++ c := by
  apply String.ext
  simp [joinDash, joinSepL, String.data_append]

theorem map_data_mk (L : List (List Char)) :
    L.map (String.data ∘ fun l => (⟨l⟩ : String)) = L := by
  induction L with
  | nil => rfl
  | cons a t ih =>
    rw [List.map_cons, ih]
    rfl

/-- C8: `_parent_cfgl_for` agrees with the specification's parent-path rule
on every path string: a 4-segment path whose third segment is the sentinel
"01" maps to the 3-segment path keeping segments 1, 2 and 4; any other
dash-containing path maps to the path with its last segment dropped; a
dash-free path maps to the empty parent path. -/
theorem c8_parent_path_rule (cfgl : String) : parent_cfgl_for cfgl = parent_path_spec cfgl := by
  unfold parent_cfgl_for parent_path_spec
  by_cases h4 : ((pySplit '-' cfgl).filter (· ≠ "")).length = 4 ∧
      ((pySplit '-' cfgl).filter (· ≠ "")).getD 2 "" = "01"
  · rw [if_pos h4, if_pos h4, joinDash_three]
  · rw [if_neg h4, if_neg h4]
    by_cases hd : pyIn "-" cfgl = true
    · rw [if_pos hd, if_pos hd]
      rw [pyBeforeLast_eq_join_dropLast '-' cfgl hd]
      unfold joinDash pySplit
      rw [← List.map_dropLast, List.map_map, map_data_mk]
    · rw [if_neg hd, if_neg hd]

theorem pyEndsWith_append_right (s a b : String) (h : pyEndsWith s (a ++ b) = true) :
    pyEndsWith s b = true := by
  unfold pyEndsWith at h ⊢
  rw [List.isSuffixOf_iff_suffix] at h ⊢
  rw [String.data_append] at h
  exact List.IsSuffix.trans (List.suffix_append a.data b.data) h

/-- C5: the derived part identifiers are never guessed.  `NEW_PART_ITNO` is
non-empty only when the old item number ends with the old model suffix of the
asset and the substitution changes it; `NEW_PART_SER2` is non-empty only when
the old serial contains a dash, ends with the old wagon-serial suffix, and
the substitution changes it. -/
theorem c5_part_updates_derived (row : StrMap) (new_sern new_baureihe : String) :
    ((compute_part_updates row new_sern new_baureihe).1 ≠ "" →
      row_value row ["ITNO"] ≠ "" ∧
      pyEndsWith (row_value row ["ITNO"]) (model_suffix (row_value row ["WAGEN_ITNO"])) = true ∧
      (compute_part_updates row new_sern new_baureihe).1 ≠ row_value row ["ITNO"]) ∧
    ((compute_part_updates row new_sern new_baureihe).2 ≠ "" →
      row_value row ["SER2"] ≠ "" ∧
      pyIn "-" (row_value row ["SER2"]) = true ∧
      pyEndsWith (row_value row ["SER2"]) (wagon_serial_suffix (row_value row ["WAGEN_SERN"])) = true ∧
      (compute_part_updates row new_sern new_baureihe).2 ≠ row_value row ["SER2"]) := by
  unfold compute_part_updates
  dsimp only
  constructor
  · intro h1
    split_ifs at h1 ⊢ with hc he hq
    · exact absurd rfl h1
    · rcases Bool.or_eq_true _ _ |>.mp he with hl | hr
      · exact ⟨hc.1, pyEndsWith_append_right _ "_" _ hl, hq⟩
      · exact ⟨hc.1, hr, hq⟩
    · exact absurd rfl h1
    · exact absurd rfl h1
  · intro h2
    split_ifs at h2 ⊢ with hc he hq
    · exact absurd rfl h2
    · exact ⟨hc.1, hc.2.1, he, hq⟩
    · exact absurd rfl h2
    · exact absurd rfl h2

theorem c5_part_updates_derived_witness :
    (row_value c5row ["ITNO"] ≠ "" ∧
      pyEndsWith (row_value c5row ["ITNO"]) (model_suffix (row_value c5row ["WAGEN_ITNO"])) = true ∧
      (compute_part_updates c5row "0789" "W_789").1 ≠ row_value c5row ["ITNO"]) ∧
    (row_value c5row ["SER2"] ≠ "" ∧
      pyIn "-" (row_value c5row ["SER2"]) = true ∧
      pyEndsWith (row_value c5row ["SER2"]) (wagon_serial_suffix (row_value c5row ["WAGEN_SERN"])) = true ∧
      (compute_part_updates c5row "0789" "W_789").2 ≠ row_value c5row ["SER2"]) :=
  ⟨(c5_part_updates_derived c5row "0789" "W_789").1 (by decide),
   (c5_part_updates_derived c5row "0789" "W_789").2 (by decide)⟩

/-- C2: the classifier checks the async / idempotent / blocking indicators in
that order before any generic error scan, so a payload carrying such an
indicator is never classified `ERROR` whatever error-shaped fields it also
carries; with no indicator present the result is `ERROR` exactly when the
error scan finds a non-empty message and `OK` when it finds none — but the
scan itself can raise instead of returning: on a payload whose `Messages`
dict holds an empty (or dict-free) `Message` list, the misindented
message-type block raises `UnboundLocalError`, so the classifier raises
rather than returning `OK` (the code bug refuting the final clause of the
claim). -/
theorem c2_classifier_rules :
    (∀ payload : JVal,
      ((mi_extract_code_message payload).1 = "MO96202" ∨
        pyIn "asynchronous removal" (pyLower (mi_extract_code_message payload).2) = true) →
      mi_status payload = .ok (true, "OK_ASYNC", "")) ∧
    (∀ payload : JVal,
      (mi_extract_code_message payload).1 ≠ "MO96202" →
      pyIn "asynchronous removal" (pyLower (mi_extract_code_message payload).2) = false →
      ((mi_extract_code_message payload).1 = "MO12524" ∨
        pyIn "is installed in this position" (pyLower (mi_extract_code_message payload).2) = true) →
      mi_status payload = .ok (true, "OK_IDEMPOTENT", "")) ∧
    (∀ payload : JVal,
      (mi_extract_code_message payload).1 ≠ "MO96202" →
      pyIn "asynchronous removal" (pyLower (mi_extract_code_message payload).2) = false →
      (mi_extract_code_message payload).1 ≠ "MO12524" →
      pyIn "is installed in this position" (pyLower (mi_extract_code_message payload).2) = false →
      ((mi_extract_code_message payload).1 = "MO12527" ∨
        pyIn "status is 80" (pyLower (mi_extract_code_message payload).2) = true) →
      mi_status payload = .ok (false, "BLOCKING_WARNING",
        pyOrS (mi_extract_code_message payload).2 (mi_extract_code_message payload).1)) ∧
    (∀ payload : JVal,
      (mi_extract_code_message payload).1 ≠ "MO96202" →
      pyIn "asynchronous removal" (pyLower (mi_extract_code_message payload).2) = false →
      (mi_extract_code_message payload).1 ≠ "MO12524" →
      pyIn "is installed in this position" (pyLower (mi_extract_code_message payload).2) = false →
      (mi_extract_code_message payload).1 ≠ "MO12527" →
      pyIn "status is 80" (pyLower (mi_extract_code_message payload).2) = false →
      (∀ em, mi_error_message payload = .ok em →
        mi_status payload = (if em ≠ "" then .ok (false, "ERROR", em) else .ok (true, "OK", ""))) ∧
      (mi_error_message payload = .error () → mi_status payload = .error ())) ∧
    mi_status c2CrashPayload = .error () := by
  refine ⟨?_, ?_, ?_, ?_, ?_⟩
  · intro payload h
    unfold mi_status
    rcases h with h | h <;> simp [h]
  · intro payload h1 h2 h3
    unfold mi_status
    rcases h3 with h3 | h3 <;> simp [h1, h2, h3]
  · intro payload h1 h2 h3 h4 h5
    unfold mi_status
    rcases h5 with h5 | h5 <;> simp [h1, h2, h3, h4, h5]
  · intro payload h1 h2 h3 h4 h5 h6
    constructor
    · intro em hok
      unfold mi_status
      simp [h1, h2, h3, h4, h5, h6, hok]
    · intro herr
      unfold mi_status
      simp [h1, h2, h3, h4, h5, h6, herr]
  · show mi_status c2CrashPayload = .error ()
    unfold c2CrashPayload
    simp [mi_status, mi_extract_code_message, mi_error_message, mi_obj_rest, mi_scan_items,
      mi_scan_list, miResponseScan, miTextCheck, miNokMessage, miErrorNumberScan,
      miFirstTruthyKey, jMessageEntries, jStrField2, firstMessageText, dictEntries, objGet,
      pyOrJ, jTruthy, pyStrJ, pyReprJ, pyStrip, pyStripL, pyLower, pyIn, listContains, pyOrS,
      isNoneOrEmptyStr, pyToInt, parseIntL, digitsToNat, pyIsSpace, List.lookup]

theorem c2_classifier_rules_witness :
    mi_status c2IdemErrPayload = .ok (true, "OK_IDEMPOTENT", "") :=
  c2_classifier_rules.2.1 c2IdemErrPayload (by decide) (by decide) (Or.inl (by decide))

theorem lookup_map_f {α : Type} (r : List (String × α)) (k' : String) (f : α → α) (k : String) :
    (r.map (fun p => if p.1 = k' then (p.1, f p.2) else p)).lookup k =
      if k = k' then (r.lookup k).map f else r.lookup k := by
  induction r with
  | nil => by_cases hk : k = k' <;> simp [hk]
  | cons a t ih =>
    obtain ⟨a1, a2⟩ := a
    simp only [List.map_cons]
    by_cases ha1 : a1 = k'
    · rw [if_pos ha1]
      by_cases hk1 : k = a1
      · have hbeq : (k == a1) = true := beq_iff_eq.mpr hk1
        have hkk : k = k' := hk1.trans ha1
        rw [if_pos hkk]
        simp [List.lookup, hbeq]
      · have hbeq : (k == a1) = false := beq_eq_false_iff_ne.mpr hk1
        have hkk : ¬k = k' := fun h => hk1 (h.trans ha1.symm)
        simp [List.lookup, hbeq, hkk, ih]
    · rw [if_neg ha1]
      by_cases hk1 : k = a1
      · have hbeq : (k == a1) = true := beq_iff_eq.mpr hk1
        have hkk : ¬k = k' := fun h => ha1 (hk1.symm.trans h)
        simp [List.lookup, hbeq, hkk]
      · have hbeq : (k == a1) = false := beq_eq_false_iff_ne.mpr hk1
        simp [List.lookup, hbeq, ih]

theorem lookup_append_single {α : Type} (l : List (String × α)) (k' : String) (v : α) (k : String) :
    (l ++ [(k', v)]).lookup k =
      match l.lookup k with
      | some x => some x
      | none => if k = k' then some v else none := by
  induction l with
  | nil =>
    by_cases hk : k = k'
    · have hbeq : (k == k') = true := beq_iff_eq.mpr hk
      simp [List.lookup, hbeq, hk]
    · have hbeq : (k == k') = false := beq_eq_false_iff_ne.mpr hk
      simp [List.lookup, hbeq, hk]
  | cons a t ih =>
    obtain ⟨a1, a2⟩ := a
    by_cases hk1 : k = a1
    · have hbeq : (k == a1) = true := beq_iff_eq.mpr hk1
      simp [List.lookup, hbeq]
    · have hbeq : (k == a1) = false := beq_eq_false_iff_ne.mpr hk1
      simp [List.lookup, hbeq, ih]

theorem lookup_mset (r : StrMap) (k' v k : String) :
    (mset r k' v).lookup k = if k = k' then some v else r.lookup k := by
  unfold mset
  by_cases hp : (r.lookup k').isSome
  · rw [if_pos hp]
    have := lookup_map_f r k' (fun _ => v) k
    rw [this]
    by_cases hk : k = k'
    · subst hk
      obtain ⟨x, hx⟩ := Option.isSome_iff_exists.mp hp
      simp [hx]
    · simp [hk]
  · rw [if_neg hp, lookup_append_single]
    by_cases hk : k = k'
    · subst hk
      have hnone : r.lookup k = none := Option.not_isSome_iff_eq_none.mp hp
      simp [hnone]
    · cases h : r.lookup k <;> simp [h, hk]

theorem mgetD_mset (r : StrMap) (k' v k : String) :
    mgetD (mset r k' v) k = if k = k' then v else mgetD r k := by
  unfold mgetD
  rw [lookup_mset]
  by_cases hk : k = k' <;> simp [hk]

theorem mapList_mapAppend {α : Type} (m : List (String × List α)) (k' : String) (x : α) (k : String) :
    mapList (mapAppend m k' x) k = if k = k' then mapList m k ++ [x] else mapList m k := by
  unfold mapAppend mapList
  by_cases hp : (m.lookup k').isSome
  · rw [if_pos hp]
    have := lookup_map_f m k' (fun l => l ++ [x]) k
    rw [this]
    by_cases hk : k = k'
    · subst hk
      obtain ⟨l, hl⟩ := Option.isSome_iff_exists.mp hp
      simp [hl]
    · simp [hk]
  · rw [if_neg hp, lookup_append_single]
    by_cases hk : k = k'
    · subst hk
      have hnone : m.lookup k = none := Option.not_isSome_iff_eq_none.mp hp
      simp [hnone]
    · cases h : m.lookup k <;> simp [h, hk]

theorem mapList_mapSetList {α : Type} (m : List (String × List α)) (k' : String) (v : List α)
    (k : String) (hp : (m.lookup k').isSome) :
    mapList (mapSetList m k' v) k = if k = k' then v else mapList m k := by
  unfold mapSetList mapList
  have := lookup_map_f m k' (fun _ => v) k
  rw [this]
  by_cases hk : k = k'
  · subst hk
    obtain ⟨l, hl⟩ := Option.isSome_iff_exists.mp hp
    simp [hl]
  · simp [hk]

theorem mapList_buildExistingMap (existing : List StrMap) (k : String) :
    mapList (buildExistingMap existing) k =
      existing.filter (fun r => renumber_row_key r = k) := by
  have main : ∀ (l : List StrMap) (m : List (String × List StrMap)),
      mapList (l.foldl (fun m r => mapAppend m (renumber_row_key r) r) m) k =
        mapList m k ++ l.filter (fun r => renumber_row_key r = k) := by
    intro l
    induction l with
    | nil => intro m; simp
    | cons r t ih =>
      intro m
      simp only [List.foldl_cons]
      rw [ih (mapAppend m (renumber_row_key r) r), mapList_mapAppend]
      by_cases hk : renumber_row_key r = k
      · rw [if_pos hk.symm]
        simp [List.filter_cons, hk]
      · rw [if_neg (fun h => hk h.symm)]
        simp [List.filter_cons, hk]
  have := main existing []
  simpa [mapList] using this

theorem merge_loop_getElem (imported : List StrMap) :
    ∀ (m : List (String × List StrMap)) (i : Nat), i < imported.length →
      (merge_loop imported m)[i]? =
        some (
          match (mapList m (renumber_row_key (imported.getD i [])))[
              ((imported.take i).filter
                (fun r => renumber_row_key r = renumber_row_key (imported.getD i []))).length]? with
          | some ex => inherit_from_existing (imported.getD i []) ex
          | none => imported.getD i []) := by
  induction imported with
  | nil => intro m i hi; simp at hi
  | cons row rest ih =>
    intro m i hi
    match i with
    | 0 =>
      simp only [merge_loop, List.getD_cons_zero, List.take_zero, List.filter_nil,
        List.length_nil]
      cases hL : m.lookup (renumber_row_key row) with
      | none => simp [mapList, hL]
      | some l =>
        cases l with
        | nil => simp [mapList, hL]
        | cons ex exs => simp [mapList, hL]
    | j + 1 =>
      have hj : j < rest.length := by simpa using hi
      have hg : (rest[j]?.getD [] : StrMap) = rest.getD j [] := by simp [List.getD]
      have htake : ((row :: rest).take (j + 1)).filter
            (fun r => renumber_row_key r = renumber_row_key (rest.getD j [])) =
          (row :: rest.take j).filter
            (fun r => renumber_row_key r = renumber_row_key (rest.getD j [])) := by
        simp
      simp only [merge_loop]
      cases hL : m.lookup (renumber_row_key row) with
      | none =>
        rw [List.getElem?_cons_succ, ih m j hj]
        simp only [List.getD_cons_succ, htake, List.filter_cons]
        by_cases hkr : renumber_row_key row = renumber_row_key (rest.getD j [])
        · have hml2 : mapList m (renumber_row_key (rest[j]?.getD [])) = [] := by
            rw [hg]
            unfold mapList
            rw [← hkr, hL]
            rfl
          have hkr2 : renumber_row_key row = renumber_row_key (rest[j]?.getD []) := by
            rw [hg]; exact hkr
          simp [hkr2, hml2]
        · have hkr2 : ¬renumber_row_key row = renumber_row_key (rest[j]?.getD []) := by
            rw [hg]; exact hkr
          simp [hkr2]
      | some l =>
        cases l with
        | nil =>
          rw [List.getElem?_cons_succ, ih m j hj]
          simp only [List.getD_cons_succ, htake, List.filter_cons]
          by_cases hkr : renumber_row_key row = renumber_row_key (rest.getD j [])
          · have hml2 : mapList m (renumber_row_key (rest[j]?.getD [])) = [] := by
              rw [hg]
              unfold mapList
              rw [← hkr, hL]
              rfl
            have hkr2 : renumber_row_key row = renumber_row_key (rest[j]?.getD []) := by
              rw [hg]; exact hkr
            simp [hkr2, hml2]
          · have hkr2 : ¬renumber_row_key row = renumber_row_key (rest[j]?.getD []) := by
              rw [hg]; exact hkr
            simp [hkr2]
        | cons ex exs =>
          rw [List.getElem?_cons_succ,
            ih (mapSetList m (renumber_row_key row) exs) j hj]
          simp only [List.getD_cons_succ, htake, List.filter_cons]
          have hsome : (m.lookup (renumber_row_key row)).isSome := by rw [hL]; rfl
          rw [mapList_mapSetList m (renumber_row_key row) exs _ hsome]
          by_cases hkr : renumber_row_key row = renumber_row_key (rest.getD j [])
          · have hml2 : mapList m (renumber_row_key (rest[j]?.getD [])) = ex :: exs := by
              rw [hg]
              unfold mapList
              rw [← hkr, hL]
              rfl
            have hkr2 : renumber_row_key row = renumber_row_key (rest[j]?.getD []) := by
              rw [hg]; exact hkr
            rw [if_pos hkr.symm]
            simp [hkr2, hml2]
          · have hkr2 : ¬renumber_row_key row = renumber_row_key (rest[j]?.getD []) := by
              rw [hg]; exact hkr
            rw [if_neg (fun h => hkr h.symm)]
            simp [hkr2]

/-- C10: during merge-on-reimport, imported rows consume pre-existing rows
with the same `(path, item, serial, parent)` key positionally in stored
order, so each pre-existing row is inherited by at most one imported row
(the i-th imported row with key k inherits from the i-th stored row with key
k, when it exists, and inherits nothing otherwise); `OUT`/`UPDATED_AT` are
carried forward only when the old removal status is OK-like, and `"DRYRUN"`
is not OK-like, so a dry-run removal status is not preserved. -/
theorem c10_merge_reimport :
    (∀ existing imported : List StrMap, ∀ i : Nat, i < imported.length →
      (merge_loop imported (buildExistingMap existing))[i]? =
        some (
          match (existing.filter
              (fun r => renumber_row_key r = renumber_row_key (imported.getD i [])))[
              ((imported.take i).filter
                (fun r => renumber_row_key r = renumber_row_key (imported.getD i []))).length]? with
          | some ex => inherit_from_existing (imported.getD i []) ex
          | none => imported.getD i [])) ∧
    is_ok_status "DRYRUN" = false ∧
    (∀ row ex : StrMap, is_ok_status (mgetD ex "OUT") = false →
      mgetD (inherit_from_existing row ex) "OUT" = mgetD row "OUT" ∧
      mgetD (inherit_from_existing row ex) "UPDATED_AT" = mgetD row "UPDATED_AT") := by
  refine ⟨?_, by decide, ?_⟩
  · intro existing imported i hi
    rw [merge_loop_getElem imported (buildExistingMap existing) i hi,
      mapList_buildExistingMap]
  · intro row ex hok
    unfold inherit_from_existing
    rw [if_neg (by simp [hok])]
    dsimp only
    have step : ∀ (ks : List String) (r : StrMap),
        mgetD r "OUT" = mgetD row "OUT" → mgetD r "UPDATED_AT" = mgetD row "UPDATED_AT" →
        "OUT" ∉ ks → "UPDATED_AT" ∉ ks →
        mgetD (ks.foldl
          (fun r k => if mgetD ex k ≠ "" then mset r k (mgetD ex k) else r) r) "OUT" =
            mgetD row "OUT" ∧
        mgetD (ks.foldl
          (fun r k => if mgetD ex k ≠ "" then mset r k (mgetD ex k) else r) r) "UPDATED_AT" =
            mgetD row "UPDATED_AT" := by
      intro ks
      induction ks with
      | nil => intro r h1 h2 _ _; exact ⟨h1, h2⟩
      | cons k kt ihk =>
        intro r h1 h2 hout hupd
        simp only [List.foldl_cons]
        have hko : k ≠ "OUT" := fun h => hout (h ▸ List.mem_cons_self k kt)
        have hku : k ≠ "UPDATED_AT" := fun h => hupd (h ▸ List.mem_cons_self k kt)
        refine ihk _ ?_ ?_ (fun h => hout (List.mem_cons_of_mem k h))
          (fun h => hupd (List.mem_cons_of_mem k h))
        · by_cases hv : mgetD ex k ≠ ""
          · rw [if_pos hv, mgetD_mset, if_neg (fun h => hko h.symm)]
            exact h1
          · rw [if_neg hv]; exact h1
        · by_cases hv : mgetD ex k ≠ ""
          · rw [if_pos hv, mgetD_mset, if_neg (fun h => hku h.symm)]
            exact h2
          · rw [if_neg hv]; exact h2
    by_cases hin : mgetD ex "IN" ≠ ""
    · rw [if_pos hin]
      refine step renumberCarryColumns _ ?_ ?_ (by decide) (by decide)
      · rw [mgetD_mset, if_neg (by decide), mgetD_mset, if_neg (by decide)]
      · rw [mgetD_mset, if_neg (by decide), mgetD_mset, if_neg (by decide)]
    · rw [if_neg hin]
      exact step renumberCarryColumns _ rfl rfl (by decide) (by decide)

theorem c10_merge_reimport_witness :
    (merge_loop [c10imp] (buildExistingMap [c10ex]))[0]? =
        some (inherit_from_existing c10imp c10ex) ∧
    mgetD (inherit_from_existing c10imp c10ex) "OUT" = mgetD c10imp "OUT" := by
  constructor
  · rw [c10_merge_reimport.1 [c10ex] [c10imp] 0 (by decide)]
    rfl
  · exact (c10_merge_reimport.2.2 c10imp c10ex (by decide)).1

theorem preview_loop_getElem :
    ∀ (es : List MrEntry) (m : CMap) (counts ci : List (String × Nat)) (n : Nat),
      n < es.length →
      (preview_loop es m counts ci)[n]? =
        some (
          let st := preview_state es m counts ci n
          let e := es.getD n default
          let pc := parent_cfgl_for e.cfgl
          let res := preview_candidates st.1 counts e
          if res.1 = [] then mr_preview_of e pc e.hiit e.hisn
          else
            let k := (st.2.lookup e.cfgl).getD 0
            let ps := preview_choose counts e res.1 k
            mr_preview_of e pc ps.1 ps.2) := by
  intro es
  induction es with
  | nil => intro m counts ci n hn; simp at hn
  | cons e rest ih =>
    intro m counts ci n hn
    match n with
    | 0 =>
      simp only [preview_loop, preview_state, List.getD_cons_zero]
      by_cases hres : (preview_candidates m counts e).1 = []
      · simp [hres]
      · simp [hres]
    | j + 1 =>
      have hj : j < rest.length := by simpa using hn
      simp only [preview_loop, preview_state, List.getD_cons_succ]
      by_cases hres : (preview_candidates m counts e).1 = []
      · simp only [if_pos hres, List.getElem?_cons_succ]
        exact ih (preview_candidates m counts e).2 counts ci j hj
      · simp only [if_neg hres, List.getElem?_cons_succ]
        exact ih (preview_candidates m counts e).2 counts
          (amset ci e.cfgl (((ci.lookup e.cfgl).getD 0) + 1)) j hj

/-- C6 (amended): for every record for which the resolver finds no parent
candidates (after widening), the resulting row's parent identifiers are the
raw record's own `HIIT`/`HISN` fields — never another candidate's values —
and hence are blank exactly when the raw record's parent fields are blank. -/
theorem c6_no_candidates_keeps_raw_parent (rows : List StrMap) (n : Nat)
    (hn : n < (pySorted mrDescLe (mrouhi_entries rows)).length)
    (hempty : (preview_candidates
        (preview_state (pySorted mrDescLe (mrouhi_entries rows))
          (mr_cfgl_map (mrouhi_entries rows))
          (mr_cfgl_counts (mr_cfgl_map (mrouhi_entries rows))) [] n).1
        (mr_cfgl_counts (mr_cfgl_map (mrouhi_entries rows)))
        ((pySorted mrDescLe (mrouhi_entries rows)).getD n default)).1 = []) :
    ((build_mrouhi_preview_rows rows)[n]?).map (fun p => (p.parent_itno, p.parent_sern)) =
      some (((pySorted mrDescLe (mrouhi_entries rows)).getD n default).hiit,
        ((pySorted mrDescLe (mrouhi_entries rows)).getD n default).hisn) := by
  unfold build_mrouhi_preview_rows
  rw [preview_loop_getElem (pySorted mrDescLe (mrouhi_entries rows))
    (mr_cfgl_map (mrouhi_entries rows)) (mr_cfgl_counts (mr_cfgl_map (mrouhi_entries rows)))
    [] n hn]
  simp only [hempty]
  simp [mr_preview_of]

theorem c6_no_candidates_keeps_raw_parent_witness :
    ((build_mrouhi_preview_rows [c6row])[0]?).map (fun p => (p.parent_itno, p.parent_sern)) =
      some ("W1", "S1") := by
  rw [c6_no_candidates_keeps_raw_parent [c6row] 0 (by decide) (by decide)]
  decide

/-- C6 counterexample: the claim says the parent identifiers are left blank
when no candidates are found, but on `c6row` (no candidates at parent path
"1") the resolver emits the raw record's `HIIT = "W1"` — not blank. -/
theorem c6_claim_counterexample :
    ((build_mrouhi_preview_rows [c6row])[0]?).map (fun p => p.parent_itno) = some "W1" ∧
      ("W1" : String) ≠ "" := by
  exact ⟨by decide, by decide⟩

theorem mapList_foldl_keyed {α : Type} (keyf : α → String) (l : List α) (k : String) :
    mapList (l.foldl (fun m r => mapAppend m (keyf r) r) []) k =
      l.filter (fun r => keyf r = k) := by
  have main : ∀ (l2 : List α) (m : List (String × List α)),
      mapList (l2.foldl (fun m r => mapAppend m (keyf r) r) m) k =
        mapList m k ++ l2.filter (fun r => keyf r = k) := by
    intro l2
    induction l2 with
    | nil => intro m; simp
    | cons r t ih =>
      intro m
      simp only [List.foldl_cons]
      rw [ih (mapAppend m (keyf r) r), mapList_mapAppend]
      by_cases hk : keyf r = k
      · rw [if_pos hk.symm]
        simp [List.filter_cons, hk]
      · rw [if_neg (fun h => hk h.symm)]
        simp [List.filter_cons, hk]
  have := main l []
  simpa [mapList] using this

theorem lookup_map_value {α β : Type} (m : List (String × α)) (f : α → β) (k : String) :
    (m.map (fun kv => (kv.1, f kv.2))).lookup k = (m.lookup k).map f := by
  induction m with
  | nil => simp
  | cons a t ih =>
    obtain ⟨a1, a2⟩ := a
    by_cases hk : k = a1
    · have hbeq : (k == a1) = true := beq_iff_eq.mpr hk
      simp [List.lookup, hbeq]
    · have hbeq : (k == a1) = false := beq_eq_false_iff_ne.mpr hk
      simp [List.lookup, hbeq, ih]

theorem counts_getD (m : CMap) (c : String) :
    ((mr_cfgl_counts m).lookup c).getD 0 = (mapList m c).length := by
  unfold mr_cfgl_counts mapList
  rw [lookup_map_value]
  cases h : m.lookup c <;> simp [h]

theorem lookup_amset {α : Type} (m : List (String × α)) (k' : String) (v : α) (k : String) :
    (amset m k' v).lookup k = if k = k' then some v else m.lookup k := by
  unfold amset
  by_cases hp : (m.lookup k').isSome
  · rw [if_pos hp]
    have := lookup_map_f m k' (fun _ => v) k
    rw [this]
    by_cases hk : k = k'
    · subst hk
      obtain ⟨x, hx⟩ := Option.isSome_iff_exists.mp hp
      simp [hx]
    · simp [hk]
  · rw [if_neg hp, lookup_append_single]
    by_cases hk : k = k'
    · subst hk
      have hnone : m.lookup k = none := Option.not_isSome_iff_eq_none.mp hp
      simp [hnone]
    · cases h : m.lookup k <;> simp [h, hk]

theorem mem_pyInsert {α : Type} (le : α → α → Bool) (x a : α) (l : List α) :
    a ∈ pyInsert le x l ↔ a = x ∨ a ∈ l := by
  induction l with
  | nil => simp [pyInsert]
  | cons y t ih =>
    simp only [pyInsert]
    by_cases h : le x y = true
    · simp [h]
    · simp only [if_neg h, List.mem_cons, ih]
      tauto

theorem mem_pySorted {α : Type} (le : α → α → Bool) (a : α) (l : List α) :
    a ∈ pySorted le l ↔ a ∈ l := by
  induction l with
  | nil => simp [pySorted]
  | cons x t ih =>
    simp only [pySorted, List.foldr_cons]
    rw [mem_pyInsert]
    simp only [pySorted] at ih
    rw [ih]
    simp

theorem preview_candidates_no_widen (m : CMap) (counts : List (String × Nat)) (e : MrEntry)
    (h : mr_no_widen m counts e) :
    preview_candidates m counts e =
      (if parent_cfgl_for e.cfgl = "" then [] else mapList m (parent_cfgl_for e.cfgl), m) := by
  unfold preview_candidates
  by_cases hpc : parent_cfgl_for e.cfgl = ""
  · simp [hpc]
  · have hle := h hpc
    have : ¬((counts.lookup e.cfgl).getD 0 > (mapList m (parent_cfgl_for e.cfgl)).length) :=
      not_lt.mpr hle
    simp [hpc, this]

theorem preview_state_fixed (m0 : CMap) (counts : List (String × Nat)) :
    ∀ (es : List MrEntry), (∀ e ∈ es, mr_no_widen m0 counts e) →
      ∀ (ci : List (String × Nat)) (n : Nat),
      (preview_state es m0 counts ci n).1 = m0 ∧
      ∀ c, (((preview_state es m0 counts ci n).2).lookup c).getD 0 =
        (ci.lookup c).getD 0 +
          ((es.take n).filter (fun x =>
            decide (x.cfgl = c ∧ parent_cfgl_for x.cfgl ≠ "" ∧
              mapList m0 (parent_cfgl_for x.cfgl) ≠ []))).length := by
  intro es
  induction es with
  | nil =>
    intro _ ci n
    constructor
    · cases n <;> rfl
    · intro c
      cases n <;> simp [preview_state]
  | cons e rest ih =>
    intro hall ci n
    have he : mr_no_widen m0 counts e := hall e (by simp)
    have hrest : ∀ x ∈ rest, mr_no_widen m0 counts x := fun x hx => hall x (by simp [hx])
    match n with
    | 0 => exact ⟨rfl, fun c => by simp [preview_state]⟩
    | j + 1 =>
      simp only [preview_state, preview_candidates_no_widen m0 counts e he]
      by_cases hpc : parent_cfgl_for e.cfgl = ""
      · rw [if_pos (by simp [hpc])]
        obtain ⟨h1, h2⟩ := ih hrest ci j
        refine ⟨h1, fun c => ?_⟩
        have hpred : (decide (e.cfgl = c ∧ parent_cfgl_for e.cfgl ≠ "" ∧
            mapList m0 (parent_cfgl_for e.cfgl) ≠ [])) = false := by
          simp [hpc]
        rw [h2 c, List.take_succ_cons, List.filter_cons, hpred]
        simp
      · by_cases hbase : mapList m0 (parent_cfgl_for e.cfgl) = []
        · rw [if_pos (by simp [hpc, hbase])]
          obtain ⟨h1, h2⟩ := ih hrest ci j
          refine ⟨h1, fun c => ?_⟩
          have hpred : (decide (e.cfgl = c ∧ parent_cfgl_for e.cfgl ≠ "" ∧
              mapList m0 (parent_cfgl_for e.cfgl) ≠ [])) = false := by
            simp [hbase]
          rw [h2 c, List.take_succ_cons, List.filter_cons, hpred]
          simp
        · rw [if_neg (by simp [hpc, hbase])]
          obtain ⟨h1, h2⟩ := ih hrest (amset ci e.cfgl (((ci.lookup e.cfgl).getD 0) + 1)) j
          refine ⟨h1, fun c => ?_⟩
          by_cases hc : e.cfgl = c
          · have hpred : (decide (e.cfgl = c ∧ parent_cfgl_for e.cfgl ≠ "" ∧
                mapList m0 (parent_cfgl_for e.cfgl) ≠ [])) = true := by
              simp only [decide_eq_true_eq]
              exact ⟨hc, hpc, hbase⟩
            rw [h2 c, lookup_amset, if_pos hc.symm, List.take_succ_cons, List.filter_cons, hpred]
            have hcl : ci.lookup e.cfgl = ci.lookup c := by rw [hc]
            rw [hcl]
            simp
            omega
          · have hpred : (decide (e.cfgl = c ∧ parent_cfgl_for e.cfgl ≠ "" ∧
                mapList m0 (parent_cfgl_for e.cfgl) ≠ [])) = false := by
              simp [hc]
            rw [h2 c, lookup_amset, if_neg (fun h => hc h.symm), List.take_succ_cons,
              List.filter_cons, hpred]
            simp

/-- C7 (amended): provided no entry triggers the widening pass (the stored
candidates at each required parent path cover the children sharing the
path), the shared candidate map is never mutated and the i-th child of a
group — counting in processing order over the deterministically sorted
entries — is assigned by `preview_choose`: the i-th of its candidates after
the component-type filter, sorted by `(serial, item)`, indexed directly when
the candidates cover the group and modulo the candidate count otherwise.
When widening does trigger, its `.extend` mutates the stored candidate list
in place, later children observe a re-extended list with duplicated
candidates, and the plain modulo rule of the claim fails (see the
counterexample). -/
theorem c7_child_candidate_assignment (rows : List StrMap)
    (hw : ∀ e ∈ mrouhi_entries rows,
      mr_no_widen (mr_cfgl_map (mrouhi_entries rows))
        (mr_cfgl_counts (mr_cfgl_map (mrouhi_entries rows))) e)
    (n : Nat) (hn : n < (pySorted mrDescLe (mrouhi_entries rows)).length)
    (hpc : parent_cfgl_for ((pySorted mrDescLe (mrouhi_entries rows)).getD n default).cfgl ≠ "") :
    ((build_mrouhi_preview_rows rows)[n]?).map (fun p => (p.parent_itno, p.parent_sern)) =
      some (preview_choose (mr_cfgl_counts (mr_cfgl_map (mrouhi_entries rows)))
        ((pySorted mrDescLe (mrouhi_entries rows)).getD n default)
        (mapList (mr_cfgl_map (mrouhi_entries rows))
          (parent_cfgl_for ((pySorted mrDescLe (mrouhi_entries rows)).getD n default).cfgl))
        (((pySorted mrDescLe (mrouhi_entries rows)).take n).filter
          (fun x => x.cfgl = ((pySorted mrDescLe (mrouhi_entries rows)).getD n default).cfgl)).length) := by
  have hall : ∀ x ∈ pySorted mrDescLe (mrouhi_entries rows),
      mr_no_widen (mr_cfgl_map (mrouhi_entries rows))
        (mr_cfgl_counts (mr_cfgl_map (mrouhi_entries rows))) x :=
    fun x hx => hw x ((mem_pySorted mrDescLe x (mrouhi_entries rows)).mp hx)
  have hmem : (pySorted mrDescLe (mrouhi_entries rows)).getD n default ∈ mrouhi_entries rows := by
    have h1 : (pySorted mrDescLe (mrouhi_entries rows)).getD n default ∈
        pySorted mrDescLe (mrouhi_entries rows) := by
      rw [List.getD_eq_getElem _ _ hn]
      exact List.getElem_mem hn
    exact (mem_pySorted mrDescLe _ (mrouhi_entries rows)).mp h1
  have he := hall ((pySorted mrDescLe (mrouhi_entries rows)).getD n default) (by
    rw [List.getD_eq_getElem _ _ hn]
    exact List.getElem_mem hn)
  have hfil : mapList (mr_cfgl_map (mrouhi_entries rows))
      ((pySorted mrDescLe (mrouhi_entries rows)).getD n default).cfgl =
        (mrouhi_entries rows).filter
          (fun r => r.cfgl = ((pySorted mrDescLe (mrouhi_entries rows)).getD n default).cfgl) := by
    unfold mr_cfgl_map
    exact mapList_foldl_keyed (fun x => x.cfgl) (mrouhi_entries rows) _
  have hccpos : 1 ≤ ((mr_cfgl_counts (mr_cfgl_map (mrouhi_entries rows))).lookup
      ((pySorted mrDescLe (mrouhi_entries rows)).getD n default).cfgl).getD 0 := by
    rw [counts_getD, hfil]
    have : (pySorted mrDescLe (mrouhi_entries rows)).getD n default ∈
        (mrouhi_entries rows).filter
          (fun r => r.cfgl = ((pySorted mrDescLe (mrouhi_entries rows)).getD n default).cfgl) :=
      List.mem_filter.mpr ⟨hmem, by simp⟩
    have hpos := List.length_pos.mpr (List.ne_nil_of_mem this)
    omega
  have hbase : mapList (mr_cfgl_map (mrouhi_entries rows))
      (parent_cfgl_for ((pySorted mrDescLe (mrouhi_entries rows)).getD n default).cfgl) ≠ [] := by
    have hle := he hpc
    intro h0
    rw [h0] at hle
    simp only [List.length_nil, Nat.le_zero] at hle
    omega
  unfold build_mrouhi_preview_rows
  rw [preview_loop_getElem (pySorted mrDescLe (mrouhi_entries rows))
    (mr_cfgl_map (mrouhi_entries rows)) (mr_cfgl_counts (mr_cfgl_map (mrouhi_entries rows)))
    [] n hn]
  obtain ⟨hst1, hst2⟩ := preview_state_fixed (mr_cfgl_map (mrouhi_entries rows))
    (mr_cfgl_counts (mr_cfgl_map (mrouhi_entries rows)))
    (pySorted mrDescLe (mrouhi_entries rows)) hall [] n
  simp only [hst1, preview_candidates_no_widen _ _ _ he, if_neg hpc]
  rw [if_neg hbase]
  have hidx := hst2 ((pySorted mrDescLe (mrouhi_entries rows)).getD n default).cfgl
  have hfiltereq : ((pySorted mrDescLe (mrouhi_entries rows)).take n).filter
      (fun x => decide (x.cfgl = ((pySorted mrDescLe (mrouhi_entries rows)).getD n default).cfgl ∧
        parent_cfgl_for x.cfgl ≠ "" ∧
        mapList (mr_cfgl_map (mrouhi_entries rows)) (parent_cfgl_for x.cfgl) ≠ [])) =
      ((pySorted mrDescLe (mrouhi_entries rows)).take n).filter
        (fun x => decide (x.cfgl = ((pySorted mrDescLe (mrouhi_entries rows)).getD n default).cfgl)) := by
    apply List.filter_congr
    intro x _
    by_cases hx : x.cfgl = ((pySorted mrDescLe (mrouhi_entries rows)).getD n default).cfgl
    · have h2 : parent_cfgl_for x.cfgl ≠ "" := by rw [hx]; exact hpc
      have h3 : mapList (mr_cfgl_map (mrouhi_entries rows)) (parent_cfgl_for x.cfgl) ≠ [] := by
        rw [hx]; exact hbase
      have e3 : decide (x.cfgl = ((pySorted mrDescLe (mrouhi_entries rows)).getD n default).cfgl ∧
          parent_cfgl_for x.cfgl ≠ "" ∧
          mapList (mr_cfgl_map (mrouhi_entries rows)) (parent_cfgl_for x.cfgl) ≠ []) = true := by
        simp only [decide_eq_true_eq]
        exact ⟨hx, h2, h3⟩
      have e1 : decide (x.cfgl =
          ((pySorted mrDescLe (mrouhi_entries rows)).getD n default).cfgl) = true := by
        simp only [decide_eq_true_eq]
        exact hx
      rw [e3, e1]
    · have e3 : decide (x.cfgl = ((pySorted mrDescLe (mrouhi_entries rows)).getD n default).cfgl ∧
          parent_cfgl_for x.cfgl ≠ "" ∧
          mapList (mr_cfgl_map (mrouhi_entries rows)) (parent_cfgl_for x.cfgl) ≠ []) = false := by
        simp only [decide_eq_false_iff_not]
        intro h
        exact hx h.1
      have e1 : decide (x.cfgl =
          ((pySorted mrDescLe (mrouhi_entries rows)).getD n default).cfgl) = false := by
        simp only [decide_eq_false_iff_not]
        exact hx
      rw [e3, e1]
  rw [hfiltereq] at hidx
  rw [hidx]
  simp [mr_preview_of]
/-- Witness for C7: on `c7wraw` (two children of `1-2`, two stored candidates
at the parent path `1`) no entry triggers widening, and the second processed
child of the group receives exactly the candidate chosen by
`preview_choose` at child index 1. -/
theorem c7_child_candidate_assignment_witness :
    ((∀ e ∈ mrouhi_entries c7wraw,
      mr_no_widen (mr_cfgl_map (mrouhi_entries c7wraw))
        (mr_cfgl_counts (mr_cfgl_map (mrouhi_entries c7wraw))) e) ∧
     1 < (pySorted mrDescLe (mrouhi_entries c7wraw)).length ∧
     parent_cfgl_for ((pySorted mrDescLe (mrouhi_entries c7wraw)).getD 1 default).cfgl ≠ "") ∧
    ((build_mrouhi_preview_rows c7wraw)[1]?).map (fun p => (p.parent_itno, p.parent_sern)) =
      some (preview_choose (mr_cfgl_counts (mr_cfgl_map (mrouhi_entries c7wraw)))
        ((pySorted mrDescLe (mrouhi_entries c7wraw)).getD 1 default)
        (mapList (mr_cfgl_map (mrouhi_entries c7wraw))
          (parent_cfgl_for ((pySorted mrDescLe (mrouhi_entries c7wraw)).getD 1 default).cfgl))
        (((pySorted mrDescLe (mrouhi_entries c7wraw)).take 1).filter
          (fun x => x.cfgl =
            ((pySorted mrDescLe (mrouhi_entries c7wraw)).getD 1 default).cfgl)).length) :=
  ⟨⟨by decide, by decide, by decide⟩,
   c7_child_candidate_assignment c7wraw (by decide) 1 (by decide) (by decide)⟩

/-- Counterexample refuting C7 as claimed: on `c7raw` the group `1-1-2` has
three children, the widening pass fires and mutates the stored candidate
list in place, and the computed parents are `(SI,AS)`, `(SI,AS)`, `(QI,QS)`
for the group's children 0, 1, 2 in processing order. No duplicate-free
candidate list assigns these by the claimed i-mod-count rule: index 0 and 1
would need equal candidates (against distinctness) unless the list has one
element, which indices 0 and 2 contradict. -/
theorem c7_claim_counterexample :
    ¬ ∃ cand : List (String × String), cand.Nodup ∧
      ∀ i, i < 3 →
        ((build_mrouhi_preview_rows c7raw)[i]?).map (fun p => (p.parent_itno, p.parent_sern)) =
          some (cand.getD (i % cand.length) default) := by
  rintro ⟨cand, hnd, hall⟩
  have e0 : ((build_mrouhi_preview_rows c7raw)[0]?).map
      (fun p => (p.parent_itno, p.parent_sern)) = some ("SI", "AS") := by decide
  have e1 : ((build_mrouhi_preview_rows c7raw)[1]?).map
      (fun p => (p.parent_itno, p.parent_sern)) = some ("SI", "AS") := by decide
  have e2 : ((build_mrouhi_preview_rows c7raw)[2]?).map
      (fun p => (p.parent_itno, p.parent_sern)) = some ("QI", "QS") := by decide
  have h0 := (hall 0 (by omega)).symm.trans e0
  have h1 := (hall 1 (by omega)).symm.trans e1
  have h2 := (hall 2 (by omega)).symm.trans e2
  rcases cand with _ | ⟨a, _ | ⟨b, rest⟩⟩
  · exact absurd h0 (by decide)
  · have l1 : ([a] : List (String × String)).length = 1 := rfl
    rw [l1] at h0 h2
    have m0 : 0 % 1 = 0 := by decide
    have m2 : 2 % 1 = 0 := by decide
    rw [m0, List.getD_cons_zero] at h0
    rw [m2, List.getD_cons_zero] at h2
    exact absurd (h0.symm.trans h2) (by decide)
  · have hk : (a :: b :: rest).length = rest.length + 2 := by simp
    have i0 : 0 % (rest.length + 2) = 0 := Nat.zero_mod _
    have i1 : 1 % (rest.length + 2) = 1 := Nat.mod_eq_of_lt (by omega)
    rw [hk, i0, List.getD_cons_zero] at h0
    rw [hk, i1, List.getD_cons_succ, List.getD_cons_zero] at h1
    have hab : a = b := by
      have h0' : a = ("SI", "AS") := by injection h0
      have h1' : b = ("SI", "AS") := by injection h1
      rw [h0', h1']
    have hne : a ≠ b := by
      have hcons := List.nodup_cons.mp hnd
      exact fun h => hcons.1 (h ▸ List.mem_cons_self b rest)
    exact hne hab
theorem run_out_calls_eq (oracle : Oracle) (rows : List StrMap) :
    ∀ n, (run_out_loop false oracle rows n).2.1 =
      (rows.map (fun r => build_mos125_params r "out")).filter
        (fun p => mgetD p "TRDT" != "") := by
  induction rows with
  | nil => intro n; rfl
  | cons row rest ih =>
    intro n
    simp only [run_out_loop]
    rw [List.map_cons, List.filter_cons]
    unfold run_out_row
    by_cases h : mgetD (build_mos125_params row "out") "TRDT" = ""
    · rw [if_pos h]
      have hpred : (mgetD (build_mos125_params row "out") "TRDT" != "") = false := by
        simp [h]
      rw [hpred]
      dsimp only
      rw [ih n]
      simp
    · rw [if_neg h, if_neg (by decide : ¬(false = true))]
      have hpred : (mgetD (build_mos125_params row "out") "TRDT" != "") = true := by
        simp [h]
      rw [hpred, if_pos rfl]
      cases ho : oracle n (build_mos125_params row "out") with
      | ok response =>
        cases hm : mi_error_message response with
        | ok em =>
          dsimp only
          rw [hm]
          dsimp only
          by_cases hem : em ≠ ""
          · rw [if_pos hem]
            dsimp only
            rw [ih (n + 1)]
            simp
          · rw [if_neg hem]
            dsimp only
            rw [ih (n + 1)]
            simp
        | error e =>
          dsimp only
          rw [hm]
          dsimp only
          rw [ih (n + 1)]
          simp
      | error exc =>
        dsimp only
        rw [ih (n + 1)]
        simp
theorem run_in_calls_eq (oracle : Oracle) (rows : List StrMap) :
    ∀ n, (run_in_loop false oracle rows n).2.1 =
      (rows.map (fun r => build_mos125_params r "in")).filter
        (fun p => mgetD p "TRDT" != "") := by
  induction rows with
  | nil => intro n; rfl
  | cons row rest ih =>
    intro n
    simp only [run_in_loop]
    rw [List.map_cons, List.filter_cons]
    unfold run_in_row
    by_cases h : mgetD (build_mos125_params row "in") "TRDT" = ""
    · rw [if_pos h]
      have hpred : (mgetD (build_mos125_params row "in") "TRDT" != "") = false := by
        simp [h]
      rw [hpred]
      dsimp only
      rw [ih n]
      simp
    · rw [if_neg h, if_neg (by decide : ¬(false = true))]
      have hpred : (mgetD (build_mos125_params row "in") "TRDT" != "") = true := by
        simp [h]
      rw [hpred, if_pos rfl]
      cases ho : oracle n (build_mos125_params row "in") with
      | ok response =>
        cases hm : mi_error_message response with
        | ok em =>
          dsimp only
          rw [hm]
          dsimp only
          by_cases hem : em ≠ ""
          · rw [if_pos hem]
            dsimp only
            rw [ih (n + 1)]
            simp
          · rw [if_neg hem]
            dsimp only
            rw [ih (n + 1)]
            simp
        | error e =>
          dsimp only
          rw [hm]
          dsimp only
          rw [ih (n + 1)]
          simp
      | error exc =>
        dsimp only
        rw [ih (n + 1)]
        simp

theorem run_out_dry_eq (oracle : Oracle) (rows : List StrMap) :
    ∀ n, (run_out_loop true oracle rows n).2.1 = [] ∧
      (run_out_loop true oracle rows n).1 =
        rows.map (fun r =>
          (r, if mgetD (build_mos125_params r "out") "TRDT" = ""
              then (("ERROR: UMBAU_DATUM fehlt", false) : String × Bool)
              else ("DRYRUN", true))) := by
  induction rows with
  | nil => intro n; exact ⟨rfl, rfl⟩
  | cons row rest ih =>
    intro n
    simp only [run_out_loop]
    unfold run_out_row
    by_cases h : mgetD (build_mos125_params row "out") "TRDT" = ""
    · rw [if_pos h]
      dsimp only
      obtain ⟨h1, h2⟩ := ih n
      rw [h1, h2, List.map_cons, if_pos h]
      exact ⟨rfl, rfl⟩
    · rw [if_neg h, if_pos rfl]
      dsimp only
      obtain ⟨h1, h2⟩ := ih n
      rw [h1, h2, List.map_cons, if_neg h]
      exact ⟨rfl, rfl⟩

/-- C1 (amended): the intermediate steps gate on their own status column —
the `renumber_cms100` selection admits only rows whose `PLPN` prerequisite
is set and whose `MWNO` output column is still empty, and the
`renumber_mos100` selection only rows with `MWNO` set, a new part value
present and `MOS100_STATUS` still empty — but the remove (OUT) worker of
`renumber_run` selects every row without any status filter: outside
dry-run, its remote calls are exactly one call per row with a valid removal
date, whatever the row's `OUT` status, and the install (IN) worker of
`renumber_install` behaves the same way with respect to its `IN` status, so
re-running the OUT or IN step on already-`OK` items does issue remote calls
(see the counterexample). -/
theorem c1_step_selection :
    (∀ (table : DbTable), ∀ p ∈ cms100_select table,
      mgetD p.2 "PLPN" ≠ "" ∧ mgetD p.2 "MWNO" = "") ∧
    (∀ (table : DbTable), ∀ p ∈ mos100_select table,
      mgetD p.2 "MWNO" ≠ "" ∧
        (mgetD p.2 "NEW_PART_ITNO" ≠ "" ∨ mgetD p.2 "NEW_PART_SER2" ≠ "") ∧
        mgetD p.2 "MOS100_STATUS" = "") ∧
    (∀ (rows : List StrMap) (oracle : Oracle),
      (renumber_run_worker rows false oracle).calls =
        (rows.map (fun r => build_mos125_params r "out")).filter
          (fun p => mgetD p "TRDT" != "")) ∧
    (∀ (rows : List StrMap) (oracle : Oracle),
      (renumber_install_worker rows false oracle).calls =
        (rows.map (fun r => build_mos125_params r "in")).filter
          (fun p => mgetD p "TRDT" != "")) := by
  refine ⟨?_, ?_, ?_, ?_⟩
  · intro table p hp
    have h2 := (List.mem_filter.mp hp).2
    simp only [Bool.and_eq_true, bne_iff_ne, ne_eq, beq_iff_eq] at h2
    exact h2
  · intro table p hp
    have h2 := (List.mem_filter.mp hp).2
    simp only [Bool.and_eq_true, Bool.or_eq_true, bne_iff_ne, ne_eq, beq_iff_eq] at h2
    exact ⟨h2.1.1, h2.1.2, h2.2⟩
  · intro rows oracle
    exact run_out_calls_eq oracle rows 0
  · intro rows oracle
    exact run_in_calls_eq oracle rows 0

/-- Witness for C1 on `c1tab`: the pending `cms100` row and the pending
`mos100` row are selected, and they satisfy the prerequisite/empty-status
properties. -/
theorem c1_step_selection_witness :
    ((1, ([("PLPN", "P1")] : StrMap)) ∈ cms100_select c1tab ∧
      (mgetD ([("PLPN", "P1")] : StrMap) "PLPN" ≠ "" ∧
        mgetD ([("PLPN", "P1")] : StrMap) "MWNO" = "")) ∧
    ((2, ([("MWNO", "W1"), ("NEW_PART_ITNO", "N1"), ("MOS100_STATUS", "")] : StrMap)) ∈
        mos100_select c1tab ∧
      (mgetD ([("MWNO", "W1"), ("NEW_PART_ITNO", "N1"), ("MOS100_STATUS", "")] : StrMap)
          "MWNO" ≠ "" ∧
        (mgetD ([("MWNO", "W1"), ("NEW_PART_ITNO", "N1"), ("MOS100_STATUS", "")] : StrMap)
            "NEW_PART_ITNO" ≠ "" ∨
          mgetD ([("MWNO", "W1"), ("NEW_PART_ITNO", "N1"), ("MOS100_STATUS", "")] : StrMap)
            "NEW_PART_SER2" ≠ "") ∧
        mgetD ([("MWNO", "W1"), ("NEW_PART_ITNO", "N1"), ("MOS100_STATUS", "")] : StrMap)
          "MOS100_STATUS" = "")) :=
  ⟨⟨by decide, c1_step_selection.1 c1tab (1, [("PLPN", "P1")]) (by decide)⟩,
   ⟨by decide, c1_step_selection.2.1 c1tab
      (2, [("MWNO", "W1"), ("NEW_PART_ITNO", "N1"), ("MOS100_STATUS", "")]) (by decide)⟩⟩

/-- Counterexample refuting C1 as claimed: `c1row` has `OUT = "OK"` and
`IN = "OK"`, yet a live re-run of the OUT step and a live re-run of the IN
step each issue a remote call for it — the claim says re-running a step
issues no remote call for items whose status for that step is already
`OK`. -/
theorem c1_claim_counterexample :
    (row_value c1row ["OUT"] = "OK" ∧
      (renumber_run_worker [c1row] false noopOracle).calls =
        [build_mos125_params c1row "out"]) ∧
    (row_value c1row ["IN"] = "OK" ∧
      (renumber_install_worker [c1row] false noopOracle).calls =
        [build_mos125_params c1row "in"]) := by
  refine ⟨⟨by decide, ?_⟩, ⟨by decide, ?_⟩⟩
  · show (run_out_loop false noopOracle [c1row] 0).2.1 = _
    rw [run_out_calls_eq noopOracle [c1row] 0]
    decide
  · show (run_in_loop false noopOracle [c1row] 0).2.1 = _
    rw [run_in_calls_eq noopOracle [c1row] 0]
    decide

theorem cms100_row_dry_calls (oracle : Oracle) (n : Nat) (row : StrMap) :
    (cms100_row true oracle n row).2.2.2.1 = [] := by
  unfold cms100_row
  by_cases h : row_value row ["PLPN"] = ""
  · rw [if_pos h]
  · rw [if_neg h, if_pos rfl]

theorem cms100_round_dry_calls (oracle : Oracle) :
    ∀ (rows : DbTable) (table : DbTable) (n : Nat),
      (cms100_round true oracle rows table n).calls = [] := by
  intro rows
  induction rows with
  | nil => intro table n; rfl
  | cons p rest ih =>
    intro table n
    obtain ⟨seq, row⟩ := p
    simp only [cms100_round]
    rw [cms100_row_dry_calls, ih]
    rfl

theorem cms100_loop_dry (oracle : Oracle) (maxRetry delay : Nat) :
    ∀ (fuel : Nat) (cmsRows : DbTable) (st : CmsSt),
      (cms100_loop true oracle maxRetry delay fuel cmsRows st).calls = st.calls ∧
      (cms100_loop true oracle maxRetry delay fuel cmsRows st).jobStatus = st.jobStatus ∧
      (cms100_loop true oracle maxRetry delay fuel cmsRows st).sleeps = st.sleeps := by
  intro fuel cmsRows st
  cases fuel with
  | zero => exact ⟨rfl, rfl, rfl⟩
  | succ f =>
    simp only [cms100_loop]
    by_cases h1 : cmsRows = []
    · rw [if_pos h1]
      exact ⟨rfl, rfl, rfl⟩
    · rw [if_neg h1]
      by_cases h2 : maxRetry ≠ 0 ∧ st.attempt > maxRetry
      · rw [if_pos h2]
        exact ⟨rfl, rfl, rfl⟩
      · rw [if_neg h2]
        by_cases h3 : cms100_select (cms100_round true oracle cmsRows st.table st.n).table = []
        · rw [if_pos h3]
          refine ⟨?_, rfl, rfl⟩
          dsimp only
          rw [cms100_round_dry_calls]
          simp
        · rw [if_neg h3, if_pos trivial]
          refine ⟨?_, rfl, rfl⟩
          dsimp only
          rw [cms100_round_dry_calls]
          simp

/-- C4 (amended): with dry-run active no remote call is ever issued by the
OUT worker or the work-order lookup worker, and both jobs still finish with
status `success`; every processed OUT item with a valid removal date is
recorded `("DRYRUN", ok = true)` — but an item whose `UMBAU_DATUM` is
missing is recorded as `("ERROR: UMBAU_DATUM fehlt", ok = false)` even in
dry-run (see the counterexample), so not every processed item gets a
success placeholder. -/
theorem c4_dry_run_behavior :
    (∀ (rows : List StrMap) (oracle : Oracle),
      (renumber_run_worker rows true oracle).calls = [] ∧
      (renumber_run_worker rows true oracle).jobStatus = "success" ∧
      ∀ res ∈ (renumber_run_worker rows true oracle).results,
        mgetD (build_mos125_params res.1 "out") "TRDT" ≠ "" →
          res.2 = ("DRYRUN", true)) ∧
    (∀ (table : DbTable) (oracle : Oracle) (maxRetry delay : Nat),
      (renumber_cms100_worker table true oracle maxRetry delay).calls = [] ∧
      (renumber_cms100_worker table true oracle maxRetry delay).jobStatus = "success") := by
  constructor
  · intro rows oracle
    refine ⟨(run_out_dry_eq oracle rows 0).1, rfl, ?_⟩
    intro res hres htr
    have h2 := (run_out_dry_eq oracle rows 0).2
    rw [show (renumber_run_worker rows true oracle).results =
      (run_out_loop true oracle rows 0).1 from rfl, h2] at hres
    obtain ⟨r, hr, hre⟩ := List.mem_map.mp hres
    rw [← hre] at htr ⊢
    dsimp only at htr ⊢
    rw [if_neg htr]
  · intro table oracle maxRetry delay
    have h := cms100_loop_dry oracle maxRetry delay (maxRetry + 1) (cms100_select table)
      { table := table, n := 0, attempt := 1, rounds := 0,
        total := (cms100_select table).length, processed := 0, okCount := 0, errCount := 0,
        calls := [], apiLogs := [],
        jobLogs := ["MOS170 PLPN: " ++ toString (cms100_select table).length ++ " Positionen."],
        sleeps := [], jobStatus := "success" }
    exact ⟨h.1, h.2.1⟩

/-- Witness for C4: in dry-run the one-row job issues no call, finishes
`success`, and the row (with a valid removal date) is recorded `DRYRUN`. -/
theorem c4_dry_run_behavior_witness :
    ((c4wrow, (("DRYRUN", true) : String × Bool)) ∈
        (renumber_run_worker [c4wrow] true noopOracle).results ∧
      mgetD (build_mos125_params c4wrow "out") "TRDT" ≠ "") ∧
    (renumber_run_worker [c4wrow] true noopOracle).calls = [] ∧
    (renumber_run_worker [c4wrow] true noopOracle).jobStatus = "success" ∧
    ((c4wrow, (("DRYRUN", true) : String × Bool)).2 = ("DRYRUN", true)) :=
  ⟨⟨by decide, by decide⟩,
   (c4_dry_run_behavior.1 [c4wrow] noopOracle).1,
   (c4_dry_run_behavior.1 [c4wrow] noopOracle).2.1,
   (c4_dry_run_behavior.1 [c4wrow] noopOracle).2.2 (c4wrow, ("DRYRUN", true))
     (by decide) (by decide)⟩

/-- Counterexample refuting C4 as claimed: in dry-run, the row without an
`UMBAU_DATUM` is recorded as an error with `ok = false`, not with a
success/placeholder outcome — though still without any remote call. -/
theorem c4_claim_counterexample :
    (renumber_run_worker [c4row] true noopOracle).calls = [] ∧
    (renumber_run_worker [c4row] true noopOracle).results.map (fun r => r.2) =
      [("ERROR: UMBAU_DATUM fehlt", false)] := by
  decide
theorem row_value_single (row : StrMap) (k : String) : row_value row [k] = mgetD row k := by
  unfold row_value mgetD
  cases h : row.lookup k with
  | none => rfl
  | some v =>
    dsimp only [Option.getD]
    by_cases hv : v = ""
    · rw [if_neg (by simp [hv])]
      exact hv.symm
    · rw [if_pos hv]

theorem cms100_row_mwno (oracle : Oracle)
    (hor : ∀ n p r, oracle n p = .ok r → extract_mwno r = "") (n : Nat) (row : StrMap) :
    (if (cms100_row false oracle n row).1 = true
      then extract_mwno (cms100_row false oracle n row).2.2.1 else "") = "" := by
  unfold cms100_row
  by_cases hp : row_value row ["PLPN"] = ""
  · rw [if_pos hp]
    rfl
  · rw [if_neg hp, if_neg (by decide : ¬(false = true))]
    cases ho : oracle n (build_cms100_params (row_value row ["PLPN"])) with
    | ok r =>
      dsimp only
      cases hm : mi_error_message r with
      | ok em =>
        dsimp only
        by_cases he : ((em == "") = true)
        · rw [if_pos he]
          exact hor n _ r ho
        · rw [if_neg he]
      | error e => rfl
    | error exc => rfl

theorem cms100_select_update_ne_nil (table : DbTable) (seq : Nat)
    (h : cms100_select table ≠ []) : cms100_select (table_set_mwno table seq "") ≠ [] := by
  obtain ⟨p, hp⟩ := List.exists_mem_of_ne_nil _ h
  have hmem := (List.mem_filter.mp hp).1
  have hpred := (List.mem_filter.mp hp).2
  apply List.ne_nil_of_mem
    (a := if p.1 = seq then (p.1, mset p.2 "MWNO" "") else p)
  apply List.mem_filter.mpr
  constructor
  · exact List.mem_map.mpr ⟨p, hmem, rfl⟩
  · by_cases hs : p.1 = seq
    · rw [if_pos hs]
      simp only [Bool.and_eq_true, bne_iff_ne, ne_eq, beq_iff_eq] at hpred ⊢
      constructor
      · rw [mgetD_mset, if_neg (by decide : ¬("PLPN" = "MWNO"))]
        exact hpred.1
      · rw [mgetD_mset, if_pos rfl]
    · rw [if_neg hs]
      exact hpred

theorem cms100_round_sel (oracle : Oracle)
    (hor : ∀ n p r, oracle n p = .ok r → extract_mwno r = "") :
    ∀ (rows table : DbTable) (n : Nat), cms100_select table ≠ [] →
      cms100_select ((cms100_round false oracle rows table n).table) ≠ [] := by
  intro rows
  induction rows with
  | nil => intro table n h; exact h
  | cons p rest ih =>
    intro table n h
    obtain ⟨seq, row⟩ := p
    simp only [cms100_round]
    rw [cms100_row_mwno oracle hor n row]
    exact ih (table_set_mwno table seq "") _ (cms100_select_update_ne_nil table seq h)

theorem getLast?_pair {α : Type} (a b : α) : ([a, b] : List α).getLast? = some b := rfl

theorem cms100_round_logs (oracle : Oracle)
    (hor : ∀ n p r, oracle n p = .ok r → extract_mwno r = "") :
    ∀ (rows table : DbTable) (n : Nat), rows ≠ [] →
      ∃ l, (cms100_round false oracle rows table n).logs.getLast? = some l ∧
        l.action = "mos170_plpn_missing_mwno" ∧ l.ok = false ∧
        l.err = some "QOMWNO fehlt" := by
  intro rows
  induction rows with
  | nil => intro table n h; exact absurd rfl h
  | cons p rest ih =>
    intro table n _
    obtain ⟨seq, row⟩ := p
    simp only [cms100_round]
    rw [cms100_row_mwno oracle hor n row]
    rw [if_pos rfl]
    by_cases hr : rest = []
    · subst hr
      exact ⟨_, rfl, rfl, rfl, rfl⟩
    · obtain ⟨l, hl, h2, h3, h4⟩ :=
        ih (table_set_mwno table seq "") ((cms100_row false oracle n row).2.2.2.2) hr
      refine ⟨l, ?_, h2, h3, h4⟩
      rw [List.getLast?_append, hl]
      rfl
theorem cms100_loop_exhaust (oracle : Oracle)
    (hor : ∀ n p r, oracle n p = .ok r → extract_mwno r = "")
    (maxRetry delay : Nat) (hmr : maxRetry ≠ 0) :
    ∀ (k fuel : Nat) (st : CmsSt) (rows : DbTable),
      rows = cms100_select st.table → rows ≠ [] →
      st.attempt + k = maxRetry → k + 1 ≤ fuel →
      (cms100_loop false oracle maxRetry delay fuel rows st).rounds = st.rounds + (k + 1) ∧
      (cms100_loop false oracle maxRetry delay fuel rows st).sleeps =
        st.sleeps ++ List.replicate k delay ∧
      (cms100_loop false oracle maxRetry delay fuel rows st).jobStatus = st.jobStatus ∧
      ∃ l, (cms100_loop false oracle maxRetry delay fuel rows st).apiLogs.getLast? = some l ∧
        l.action = "mos170_plpn_missing_mwno" ∧ l.ok = false ∧
        l.err = some "QOMWNO fehlt" := by
  intro k
  induction k with
  | zero =>
    intro fuel st rows hrows hne hatt hfuel
    cases fuel with
    | zero => omega
    | succ f =>
      simp only [cms100_loop]
      rw [if_neg hne, if_neg (by rintro ⟨-, hgt⟩; omega)]
      have hnext : cms100_select ((cms100_round false oracle rows st.table st.n).table) ≠ [] := by
        apply cms100_round_sel oracle hor
        rw [← hrows]; exact hne
      rw [if_neg hnext, if_neg (by decide : ¬(false = true)), if_pos ⟨hmr, by omega⟩]
      refine ⟨by dsimp only, by dsimp only; simp, rfl, ?_⟩
      obtain ⟨l, hl, h2, h3, h4⟩ := cms100_round_logs oracle hor rows st.table st.n hne
      refine ⟨l, ?_, h2, h3, h4⟩
      dsimp only
      rw [List.getLast?_append, hl]
      rfl
  | succ k ih =>
    intro fuel st rows hrows hne hatt hfuel
    cases fuel with
    | zero => omega
    | succ f =>
      simp only [cms100_loop]
      rw [if_neg hne, if_neg (by rintro ⟨-, hgt⟩; omega)]
      have hnext : cms100_select ((cms100_round false oracle rows st.table st.n).table) ≠ [] := by
        apply cms100_round_sel oracle hor
        rw [← hrows]; exact hne
      rw [if_neg hnext, if_neg (by decide : ¬(false = true)), if_neg (by rintro ⟨-, hge⟩; omega)]
      obtain ⟨r1, r2, r3, r4⟩ := ih f
        { table := (cms100_round false oracle rows st.table st.n).table,
          n := (cms100_round false oracle rows st.table st.n).n,
          attempt := st.attempt + 1, rounds := st.rounds + 1,
          total := st.total +
            (cms100_select ((cms100_round false oracle rows st.table st.n).table)).length,
          processed := st.processed + rows.length,
          okCount := st.okCount + (cms100_round false oracle rows st.table st.n).okCount,
          errCount := st.errCount + (cms100_round false oracle rows st.table st.n).errCount,
          calls := st.calls ++ (cms100_round false oracle rows st.table st.n).calls,
          apiLogs := st.apiLogs ++ (cms100_round false oracle rows st.table st.n).logs,
          jobLogs := st.jobLogs ++
            ["MOS170 PLPN: Versuch " ++ toString st.attempt ++ " für " ++
              toString rows.length ++ " Positionen."] ++
            ["Warte " ++ toString delay ++ " Sekunden auf ERP ..."],
          sleeps := st.sleeps ++ [delay], jobStatus := st.jobStatus }
        (cms100_select ((cms100_round false oracle rows st.table st.n).table))
        rfl hnext (by dsimp only; omega) (by omega)
      refine ⟨?_, ?_, ?_, ?_⟩
      · rw [r1]
        dsimp only
        omega
      · rw [r2]
        dsimp only
        rw [List.append_assoc]
        simp [List.replicate_succ]
      · rw [r3]
      · exact r4
/-- C3: with a remote stub that never yields the work-order value, the
lookup worker performs exactly the configured maximum number of rounds,
records the fixed delay between consecutive rounds, its final api-log entry
is the terminal `mos170_plpn_missing_mwno` error whose message
`"QOMWNO fehlt"` contains `"fehlt"`, and the job still finishes with status
`success` (no exception escapes); every selected row has its `PLPN`
parameter, so the missing-parameter branch cannot fire for selected rows,
and a dry-run execution never sleeps or calls again. -/
theorem c3_cms100_retry_exhaustion (table : DbTable) (oracle : Oracle)
    (maxRetry delay : Nat) (hmax : 1 ≤ maxRetry)
    (hne : cms100_select table ≠ [])
    (hor : ∀ n p r, oracle n p = .ok r → extract_mwno r = "") :
    (renumber_cms100_worker table false oracle maxRetry delay).rounds = maxRetry ∧
    (renumber_cms100_worker table false oracle maxRetry delay).sleeps =
      List.replicate (maxRetry - 1) delay ∧
    (renumber_cms100_worker table false oracle maxRetry delay).jobStatus = "success" ∧
    (∃ l, (renumber_cms100_worker table false oracle maxRetry delay).apiLogs.getLast? =
        some l ∧
      l.action = "mos170_plpn_missing_mwno" ∧ l.ok = false ∧
      l.err = some "QOMWNO fehlt" ∧ pyIn "fehlt" "QOMWNO fehlt" = true) ∧
    (∀ p ∈ cms100_select table, row_value p.2 ["PLPN"] ≠ "") ∧
    (∀ (tb : DbTable) (or2 : Oracle) (m d : Nat),
      (renumber_cms100_worker tb true or2 m d).sleeps = [] ∧
      (renumber_cms100_worker tb true or2 m d).calls = []) := by
  have e : renumber_cms100_worker table false oracle maxRetry delay =
      cms100_loop false oracle maxRetry delay (maxRetry + 1) (cms100_select table)
        { table := table, n := 0, attempt := 1, rounds := 0,
          total := (cms100_select table).length, processed := 0, okCount := 0, errCount := 0,
          calls := [], apiLogs := [],
          jobLogs := ["MOS170 PLPN: " ++ toString (cms100_select table).length ++
            " Positionen."],
          sleeps := [], jobStatus := "success" } := rfl
  obtain ⟨r1, r2, r3, r4⟩ := cms100_loop_exhaust oracle hor maxRetry delay (by omega)
    (maxRetry - 1) (maxRetry + 1)
    { table := table, n := 0, attempt := 1, rounds := 0,
      total := (cms100_select table).length, processed := 0, okCount := 0, errCount := 0,
      calls := [], apiLogs := [],
      jobLogs := ["MOS170 PLPN: " ++ toString (cms100_select table).length ++
        " Positionen."],
      sleeps := [], jobStatus := "success" }
    (cms100_select table) rfl hne (by dsimp only; omega) (by omega)
  refine ⟨?_, ?_, ?_, ?_, ?_, ?_⟩
  · rw [e, r1]
    dsimp only
    omega
  · rw [e, r2]
    dsimp only
    have : 1 + (maxRetry - 1) = maxRetry := by omega
    simp [this]
  · rw [e, r3]
  · obtain ⟨l, hl, h2, h3, h4⟩ := r4
    exact ⟨l, by rw [e]; exact hl, h2, h3, h4, by decide⟩
  · intro p hp
    have h2 := (List.mem_filter.mp hp).2
    simp only [Bool.and_eq_true, bne_iff_ne, ne_eq, beq_iff_eq] at h2
    rw [row_value_single]
    exact h2.1
  · intro tb or2 m d
    have h := cms100_loop_dry or2 m d (m + 1) (cms100_select tb)
      { table := tb, n := 0, attempt := 1, rounds := 0,
        total := (cms100_select tb).length, processed := 0, okCount := 0, errCount := 0,
        calls := [], apiLogs := [],
        jobLogs := ["MOS170 PLPN: " ++ toString (cms100_select tb).length ++ " Positionen."],
        sleeps := [], jobStatus := "success" }
    exact ⟨h.2.2, h.1⟩

/-- Witness for C3 at the spec's test shape: maximum 3 attempts, fixed delay
3, one pending row and a stub that never returns `MWNO` — exactly 3 rounds,
2 sleeps, the terminal missing-work-order error, and a `success` job. -/
theorem c3_cms100_retry_exhaustion_witness :
    (1 ≤ 3 ∧ cms100_select c3tab ≠ [] ∧
      (∀ n p r, noopOracle n p = .ok r → extract_mwno r = "")) ∧
    (renumber_cms100_worker c3tab false noopOracle 3 3).rounds = 3 ∧
    (renumber_cms100_worker c3tab false noopOracle 3 3).sleeps =
      List.replicate (3 - 1) 3 ∧
    (renumber_cms100_worker c3tab false noopOracle 3 3).jobStatus = "success" :=
  have hor : ∀ n p r, noopOracle n p = .ok r → extract_mwno r = "" := by
    intro n p r h
    injection h with h2
    rw [← h2]
    rfl
  ⟨⟨by decide, by decide, hor⟩,
   (c3_cms100_retry_exhaustion c3tab noopOracle 3 3 (by decide) (by decide) hor).1,
   (c3_cms100_retry_exhaustion c3tab noopOracle 3 3 (by decide) (by decide) hor).2.1,
   (c3_cms100_retry_exhaustion c3tab noopOracle 3 3 (by decide) (by decide) hor).2.2.1⟩
theorem parent_of_params (m : StrMap) (a b : String) :
    mgetD (mset (mset m "NHAI" a) "NHSI" b) "NHAI" = a ∧
    mgetD (mset (mset m "NHAI" a) "NHSI" b) "NHSI" = b := by
  constructor
  · rw [mgetD_mset, if_neg (by decide : ¬("NHAI" = "NHSI")), mgetD_mset, if_pos rfl]
  · rw [mgetD_mset, if_pos rfl]

/-- C9: the rollback targets are exactly the rows whose `OUT` status is `OK`
or `DRYRUN` (sorted by rowid), and the candidate retry loop — entered by
`rollback_row` only on a retry-pair code with more than one stored
candidate — issues installs against the untried candidates (skipping the
current parent) in order, stopping with the first response whose code is
outside the pair: the parents of the calls it adds are exactly the
`rollbackTriedSpec` prefix of the untried candidate list. -/
theorem c9_rollback_replay :
    (∀ (rows : DbTable) (p : Nat × StrMap),
      p ∈ rollback_targets rows ↔ p ∈ rows ∧
        (row_value p.2 ["OUT"] = "OK" ∨ row_value p.2 ["OUT"] = "DRYRUN")) ∧
    (∀ (oracle : Oracle) (dry : Bool) (cur : String × String) (inPair : Nat → Bool),
      (∀ i q, ∃ r s, oracle i q = .ok r ∧ mi_status r = .ok s ∧
        ((mi_extract_code_message r).1 ∈ rollback_retry_codes ↔ inPair i = true)) →
      ∀ (cands : List PcEntry) (acc : RbRes),
        (rollback_retry_loop oracle dry cur cands acc).calls.map
            (fun q => (mgetD q "NHAI", mgetD q "NHSI")) =
          acc.calls.map (fun q => (mgetD q "NHAI", mgetD q "NHSI")) ++
            ((cands.filter (fun c => decide ((c.itno, c.sern) ≠ cur))).map
                (fun c => (c.itno, c.sern))).take
              (rollbackTriedSpec inPair acc.n
                (cands.filter (fun c => decide ((c.itno, c.sern) ≠ cur))).length)) := by
  constructor
  · intro rows p
    unfold rollback_targets
    rw [mem_pySorted]
    rw [List.mem_filter]
    constructor
    · rintro ⟨h1, h2⟩
      refine ⟨h1, ?_⟩
      simpa only [Bool.or_eq_true, beq_iff_eq] using h2
    · rintro ⟨h1, h2⟩
      refine ⟨h1, ?_⟩
      simpa only [Bool.or_eq_true, beq_iff_eq] using h2
  · intro oracle dry cur inPair hmain cands
    induction cands with
    | nil =>
      intro acc
      simp [rollback_retry_loop, rollbackTriedSpec]
    | cons cand rest ih =>
      intro acc
      simp only [rollback_retry_loop]
      rw [List.filter_cons]
      by_cases hc : (cand.itno, cand.sern) = cur
      · rw [if_pos hc]
        have hpred : (decide ((cand.itno, cand.sern) ≠ cur)) = false := by simp [hc]
        rw [hpred]
        exact ih acc
      · rw [if_neg hc]
        have hpred : (decide ((cand.itno, cand.sern) ≠ cur)) = true := by simp [hc]
        rw [hpred, if_pos rfl]
        obtain ⟨r, s, ho, hs, hcode⟩ :=
          hmain acc.n (mset (mset acc.params "NHAI" cand.itno) "NHSI" cand.sern)
        rw [ho]
        dsimp only
        rw [hs]
        dsimp only
        rw [List.map_cons, List.length_cons]
        by_cases hp : (mi_extract_code_message r).1 ∈ rollback_retry_codes
        · have hip : inPair acc.n = true := hcode.mp hp
          rw [if_pos hp]
          rw [ih]
          dsimp only
          rw [show rollbackTriedSpec inPair acc.n
              ((rest.filter (fun c => decide ((c.itno, c.sern) ≠ cur))).length + 1) =
              rollbackTriedSpec inPair (acc.n + 1)
                (rest.filter (fun c => decide ((c.itno, c.sern) ≠ cur))).length + 1 from by
            rw [rollbackTriedSpec, hip]
            simp [Nat.add_comm]]
          rw [List.take_succ_cons]
          rw [List.map_append, List.append_assoc]
          congr 1
          simp only [List.map_cons, List.map_nil, List.singleton_append]
          rw [(parent_of_params acc.params cand.itno cand.sern).1,
            (parent_of_params acc.params cand.itno cand.sern).2]
        · have hip : inPair acc.n = false := by
            cases h2 : inPair acc.n
            · rfl
            · exact absurd (hcode.mpr h2) hp
          rw [if_neg hp]
          dsimp only
          rw [show rollbackTriedSpec inPair acc.n
              ((rest.filter (fun c => decide ((c.itno, c.sern) ≠ cur))).length + 1) =
              1 from by rw [rollbackTriedSpec, hip]; rfl]
          rw [List.take_succ_cons, List.take_zero]
          rw [List.map_append]
          congr 1
          simp only [List.map_cons, List.map_nil, List.singleton_append]
          rw [(parent_of_params acc.params cand.itno cand.sern).1,
            (parent_of_params acc.params cand.itno cand.sern).2]
/-- Witness for C9: one row with `OUT = "OK"` is a rollback target, and on
the concrete three-candidate scenario — where the first two responses carry
the idempotency-conflict code and the third does not — the retry loop's
calls target exactly the spec-prefix of the untried candidates. -/
theorem c9_rollback_replay_witness :
    ((1, ([("OUT", "OK")] : StrMap)) ∈ rollback_targets [(1, [("OUT", "OK")])] ↔
      (1, ([("OUT", "OK")] : StrMap)) ∈ [(1, ([("OUT", "OK")] : StrMap))] ∧
        (row_value ([("OUT", "OK")] : StrMap) ["OUT"] = "OK" ∨
          row_value ([("OUT", "OK")] : StrMap) ["OUT"] = "DRYRUN")) ∧
    (∀ i q, ∃ r s, c9oracle i q = .ok r ∧ mi_status r = .ok s ∧
      ((mi_extract_code_message r).1 ∈ rollback_retry_codes ↔
        (decide (i ≤ 1) : Bool) = true)) ∧
    ((rollback_retry_loop c9oracle false ("M1", "MS1") c9cands c9acc).calls.map
        (fun q => (mgetD q "NHAI", mgetD q "NHSI")) =
      c9acc.calls.map (fun q => (mgetD q "NHAI", mgetD q "NHSI")) ++
        ((c9cands.filter (fun c => decide ((c.itno, c.sern) ≠ ("M1", "MS1")))).map
            (fun c => (c.itno, c.sern))).take
          (rollbackTriedSpec (fun i => decide (i ≤ 1)) c9acc.n
            (c9cands.filter
              (fun c => decide ((c.itno, c.sern) ≠ ("M1", "MS1")))).length)) :=
  have hmain : ∀ i q, ∃ r s, c9oracle i q = .ok r ∧ mi_status r = .ok s ∧
      ((mi_extract_code_message r).1 ∈ rollback_retry_codes ↔
        (decide (i ≤ 1) : Bool) = true) := by
    intro i q
    by_cases hi : i ≤ 1
    · refine ⟨c9pay "MO12524", (true, "OK_IDEMPOTENT", ""), ?_, rfl, ?_⟩
      · show Except.ok (c9pay (if i ≤ 1 then "MO12524" else "MO12527")) = _
        rw [if_pos hi]
      · exact iff_of_true (by decide) (by simp [hi])
    · refine ⟨c9pay "MO12527", (false, "BLOCKING_WARNING", "MO12527"), ?_, rfl, ?_⟩
      · show Except.ok (c9pay (if i ≤ 1 then "MO12524" else "MO12527")) = _
        rw [if_neg hi]
      · exact iff_of_false (by decide) (by simp [hi])
  ⟨c9_rollback_replay.1 [(1, [("OUT", "OK")])] (1, [("OUT", "OK")]),
   hmain,
   c9_rollback_replay.2 c9oracle false ("M1", "MS1") (fun i => decide (i ≤ 1)) hmain
     c9cands c9acc⟩
